import Mathlib

/-!
# SQL statement builder of package `db` (sql_builder.go)

A shallow embedding of `FullSql`, `SB.ToSql`, `SB.buildUpdateParams`, `SB.Limit`,
`SB.Exec` and the helpers they depend on, followed by theorems about them.

Modelling conventions.

* A Go `string` is a `List Char` (`Str`).  The only separators the code searches
  for are the one-byte strings `?`, `'` and `\`, which never occur inside a
  multi-byte UTF-8 sequence, so working on characters agrees with Go working on
  bytes.
* A Go `interface{}` value is a `Val`, a tagged union over the dynamic types that
  the type switch of `FullSql` distinguishes, `IncVal`, and "any other type".
* An `SBValues` map is the list of its entries in the order in which the
  `range` loop visits them.  Go leaves that order unspecified, so a statement
  quantified over every list covers every order.
* Mutation of `q.args` is explicit state passing: functions return the builder.
* A nil-pointer dereference (`q.db.Type` or `q.db.Exec` with `q.db == nil`) is
  `none`.
* The collaborator behind `q.db.Exec` is a function parameter, and `Exec` returns
  the list of the calls it made to it.
-/

namespace Db

/-- Go `string`. -/
abbrev Str := List Char

/-! ## Constants and package variables -/

def TypeInsert : Int := 1
def TypeDelete : Int := 2
def TypeUpdate : Int := 3
def TypeSelect : Int := 4
def TypeInsertUpdate : Int := 5

/-- The placeholder marker `?` that `FullSql` looks for. -/
def marker : Char := '?'

/-- The package variables `WrapSymbol` and `DBType`, together with the two float
formatters of the package.

Modelled from the spec: `F32toA` and `F64toA` are helpers of the package that are
not among the source files; section 4.2 says a floating point argument is rendered
as its "decimal text representation, no quoting".  They are taken as parameters
acting on the bit pattern of the float, and, being decimal text, they never
produce the placeholder marker. -/
structure Env where
  WrapSymbol : Str
  DBType : Str
  F32toA : Nat → Str
  F64toA : Nat → Str
  F32toA_decimal : ∀ v, marker ∉ F32toA v
  F64toA_decimal : ∀ v, marker ∉ F64toA v

/-! ## Data model -/

/-- Go `type IncVal struct { Val int64; BaseField string }`. -/
structure IncVal where
  Val : Int
  BaseField : Str
  deriving DecidableEq, Repr

/-- A Go `interface{}` value, by dynamic type.  Floats carry their bit pattern,
`*big.Int` is `none` for a nil pointer, `other` is a value of any type that is not
listed, identified by its `reflect` type name and its `%v` text. -/
inductive Val where
  | int (v : Int)
  | int8 (v : Int)
  | int16 (v : Int)
  | int32 (v : Int)
  | int64 (v : Int)
  | uint (v : Nat)
  | uint8 (v : Nat)
  | uint16 (v : Nat)
  | uint32 (v : Nat)
  | uint64 (v : Nat)
  | float32 (bits : Nat)
  | float64 (bits : Nat)
  | bigInt (v : Option Int)
  | bool (b : Bool)
  | string (s : Str)
  | nil
  | incVal (iv : IncVal)
  | other (typeName : Str) (text : Str)
  deriving DecidableEq, Repr

/-- Go `type SBValues map[string]interface{}`: the entries in `range` order. -/
abbrev SBValues := List (Str × Val)

/-- Modelled from the spec: the struct `Database` is declared outside the source
files; `ToSql` reads only its dialect tag `Type` (here `Type_`). -/
structure Database where
  Type_ : Str
  deriving DecidableEq, Repr

/-- Go `error` values built in this file. -/
inductive Err where
  /-- Go `errors.New(text)`. -/
  | New (text : Str)
  /-- The error of `FullSql`, `errors.New(fmt.Sprintf("invalid sql argument type:
  %v => %v (sql: %s)", reflect.TypeOf(v).String(), v, str))`, kept symbolic. -/
  | invalidArg (v : Val) (sql : Str)
  deriving DecidableEq, Repr

/-- Go `type SB struct`.  `db` is `none` for a nil pointer. -/
structure SB where
  db : Option Database
  t : Int
  field : Str
  table : Str
  where_ : Str
  group : Str
  order : Str
  limit : Str
  values : SBValues
  values2 : SBValues
  ignore : Bool
  fullsql : Bool
  debug : Bool
  unsafe_ : Bool
  args : List Val
  deriving DecidableEq, Repr

/-! ## Helpers of the package and of the Go library -/

/-- Decimal text of a natural number. -/
def natToA (n : Nat) : Str := Nat.toDigits 10 n

/-- Decimal text of an integer, with a leading `-` when negative: Go
`strconv.Itoa`. -/
def intToA (i : Int) : Str :=
  if i < 0 then '-' :: natToA i.natAbs else natToA i.toNat

/-- Modelled from the spec: `I64toA` is not among the source files; section 4.2,
"signed/unsigned integers of all widths ... decimal text representation". -/
def I64toA (v : Int) : Str := intToA v

/-- Modelled from the spec: `UitoA` is not among the source files; decimal text. -/
def UitoA (v : Nat) : Str := natToA v

/-- Modelled from the spec: `Ui32toA` is not among the source files; decimal text. -/
def Ui32toA (v : Nat) : Str := natToA v

/-- Modelled from the spec: `Ui64toA` is not among the source files; decimal text. -/
def Ui64toA (v : Nat) : Str := natToA v

/-- Modelled from the spec: `Itoa` is not among the source files; decimal text of
an `int`. -/
def Itoa (v : Int) : Str := intToA v

/-- Modelled from the spec: `Substr` is not among the source files; `Substr(s, 1)`
is used to drop the leading separator of an accumulated list, section 4.3
"(<quoted fields>) VALUES (<placeholders>)". -/
def Substr (s : Str) (start : Nat) : Str := s.drop start

/-- Modelled from the spec: `Ternary` is not among the source files; section 4.3,
"effective-base is BaseField if set, else field itself". -/
def Ternary (c : Bool) (a b : Str) : Str := if c then a else b

/-- Go `strings.Contains(s, sep)` for a one-character `sep`. -/
def Contains (s : Str) (sep : Char) : Bool := s.elem sep

/-- Go `strings.Split(s, sep)` for a one-character `sep`: always at least one
fragment. -/
def Split (sep : Char) : Str → List Str
  | [] => [[]]
  | c :: cs =>
    if c = sep then [] :: Split sep cs
    else
      match Split sep cs with
      | [] => [[c]]
      | f :: fs => (c :: f) :: fs

/-- Go `strings.Replace(s, old, new, -1)` for a one-character `old`. -/
def Replace (s : Str) (old : Char) (new : Str) : Str :=
  match s with
  | [] => []
  | c :: cs => if c = old then new ++ Replace cs old new else c :: Replace cs old new

/-! ## `FullSql` -/

/-- The type switch in the loop of `FullSql`: the text appended for an argument,
`none` for the `default` branch. -/
def literal (env : Env) : Val → Option Str
  | .int v => some (intToA v)
  | .int8 v => some (intToA v)
  | .int16 v => some (intToA v)
  | .int32 v => some (I64toA v)
  | .int64 v => some (I64toA v)
  | .uint v => some (UitoA v)
  | .uint8 v => some (UitoA v)
  | .uint16 v => some (UitoA v)
  | .uint32 v => some (Ui32toA v)
  | .uint64 v => some (Ui64toA v)
  | .float32 v => some (env.F32toA v)
  | .float64 v => some (env.F64toA v)
  | .bigInt (some v) => some (intToA v)
  | .bigInt none => some "<nil>".toList
  | .bool b => some (if b then "true".toList else "false".toList)
  | .string v => some ("'".toList ++ Replace (Replace v '\'' []) '\\' "\\\\".toList ++ "'".toList)
  | .nil => some "NULL".toList
  | .incVal _ => none
  | .other _ _ => none

/-- The `for _, son := range sons` loop of `FullSql`, from the state
`(argIndex, ret)`. -/
def FullSqlLoop (env : Env) (str : Str) (args : List Val) :
    List Str → Nat → Str → Str × Option Err
  | [], _, ret => (ret, none)
  | son :: sons, argIndex, ret =>
    if h : argIndex < args.length then
      match literal env (args.get ⟨argIndex, h⟩) with
      | some t => FullSqlLoop env str args sons (argIndex + 1) (ret ++ son ++ t)
      | none => ([], some (Err.invalidArg (args.get ⟨argIndex, h⟩) str))
    else FullSqlLoop env str args sons argIndex (ret ++ son)

/-- Go `func FullSql(str string, args ...interface{}) (string, error)`. -/
def FullSql (env : Env) (str : Str) (args : List Val) : Str × Option Err :=
  if ¬ Contains str marker then (str, none)
  else FullSqlLoop env str args (Split marker str) 0 []

/-! ## `ToSql` -/

/-- Body of the `range q.values` loop of the `TypeInsert` case, on the state
`(fields, placeholder, q.args)`. -/
def insertStep (env : Env) (st : Str × Str × List Val) (kv : Str × Val) :
    Str × Str × List Val :=
  let fields := st.1 ++ (",".toList ++ env.WrapSymbol ++ kv.1 ++ env.WrapSymbol)
  let placeholder := st.2.1 ++ ",?".toList
  match kv.2 with
  | .incVal iv => (fields, placeholder, st.2.2 ++ [Val.int64 iv.Val])
  | v => (fields, placeholder, st.2.2 ++ [v])

/-- Body of the `range q.values` loop of the `TypeInsertUpdate` case. -/
def insertUpdateStep (env : Env) (st : Str × Str × List Val) (kv : Str × Val) :
    Str × Str × List Val :=
  (st.1 ++ (",".toList ++ env.WrapSymbol ++ kv.1 ++ env.WrapSymbol),
   st.2.1 ++ ",?".toList,
   st.2.2 ++ [kv.2])

/-- Body of the `range vals` loop of `buildUpdateParams`, on the state
`(placeholder, q.args)`. -/
def updateStep (env : Env) (st : Str × List Val) (kv : Str × Val) : Str × List Val :=
  match kv.2 with
  | .incVal iv =>
    let placeholder := st.1 ++ (",".toList ++ env.WrapSymbol ++ kv.1 ++ env.WrapSymbol
      ++ "=".toList ++ Ternary (iv.BaseField = []) kv.1 iv.BaseField)
    if iv.Val ≥ 0 then (placeholder ++ ("+".toList ++ I64toA iv.Val), st.2)
    else (placeholder ++ I64toA iv.Val, st.2)
  | v => (st.1 ++ (",".toList ++ env.WrapSymbol ++ kv.1 ++ env.WrapSymbol ++ "=?".toList),
          st.2 ++ [v])

/-- Go `func (q *SB) buildUpdateParams(vals SBValues) string`: the builder with
the arguments bound, and the returned text. -/
def buildUpdateParams (env : Env) (q : SB) (vals : SBValues) : SB × Str :=
  let r := vals.foldl (updateStep env) ([], q.args)
  ({ q with args := r.2 }, r.1)

/-- The `switch q.t` of `ToSql`.  `none` is a nil-pointer dereference,
`some (q, str, some e)` is an early `return` with `err = e`, and
`some (q, str, none)` leaves the switch normally. -/
def ToSqlSwitch (env : Env) (q : SB) : Option (SB × Str × Option Err) :=
  if q.t = TypeInsert then
    if q.table = [] then some (q, [], some (Err.New "table cannot be empty".toList))
    else if q.values.length = 0 then
      some (q, [], some (Err.New "values cannot be empty".toList))
    else
      let str := if q.ignore then "INSERT IGNORE INTO ".toList ++ q.table
                 else "INSERT INTO ".toList ++ q.table
      let r := q.values.foldl (insertStep env) ([], [], q.args)
      some ({ q with args := r.2.2 },
        str ++ (" (".toList ++ Substr r.1 1 ++ ") VALUES (".toList ++ Substr r.2.1 1
          ++ ")".toList), none)
  else if q.t = TypeDelete then
    if q.table ≠ [] then
      if q.where_ = [] ∧ ¬ q.unsafe_ then
        some (q, [], some (Err.New "deleting all data is not safe".toList))
      else
        let str := "DELETE ".toList ++ q.table
        let str := if q.table ≠ [] then str ++ (" FROM ".toList ++ q.table) else str
        let str := if q.where_ ≠ [] then str ++ (" WHERE ".toList ++ q.where_) else str
        some (q, str, none)
    else some (q, [], none)
  else if q.t = TypeUpdate then
    if q.table ≠ [] then
      if q.where_ = [] ∧ ¬ q.unsafe_ then
        some (q, [], some (Err.New "updating all data is not safe".toList))
      else
        let str := "UPDATE ".toList ++ q.table
        let r := buildUpdateParams env q q.values
        let str := str ++ (" SET ".toList ++ Substr r.2 1)
        let str := if q.where_ ≠ [] then str ++ (" WHERE ".toList ++ q.where_) else str
        some (r.1, str, none)
    else some (q, [], none)
  else if q.t = TypeInsertUpdate then
    if q.table ≠ [] then
      let str := "INSERT INTO ".toList ++ q.table
      let r := q.values.foldl (insertUpdateStep env) ([], [], q.args)
      let str := str ++ (" (".toList ++ Substr r.1 1 ++ ") VALUES (".toList
        ++ Substr r.2.1 1 ++ ") ON DUPLICATE KEY UPDATE ".toList)
      let u := buildUpdateParams env { q with args := r.2.2 } q.values2
      some (u.1, str ++ Substr u.2 1, none)
    else some (q, [], none)
  else if q.t = TypeSelect then
    let str := "SELECT ".toList ++ q.field
    let str := if q.table ≠ [] then str ++ (" FROM ".toList ++ q.table) else str
    let str := if q.where_ ≠ [] then str ++ (" WHERE ".toList ++ q.where_) else str
    let str := if q.group ≠ [] then str ++ (" GROUP BY ".toList ++ q.group) else str
    let str := if q.order ≠ [] then str ++ (" ORDER BY ".toList ++ q.order) else str
    if q.limit ≠ [] then
      match q.db with
      | none => none
      | some db =>
        if db.Type_ = [] ∨ db.Type_ = "mysql".toList then
          some (q, str ++ (" LIMIT ".toList ++ q.limit), none)
        else some (q, str, none)
    else some (q, str, none)
  else some (q, [], none)

/-- Go `func (q *SB) ToSql(returnFullSql ...bool) (str string, err error)`: the
builder after the call, `str` and `err`; `none` when the call panics. -/
def ToSql (env : Env) (q : SB) (returnFullSql : List Bool) :
    Option (SB × Str × Option Err) :=
  match ToSqlSwitch env { q with args := [] } with
  | none => none
  | some (q1, str, some e) => some (q1, str, some e)
  | some (q1, str, none) =>
    if returnFullSql.length = 1 ∧ returnFullSql.head? = some true then
      some (q1, FullSql env str q1.args)
    else some (q1, str, none)

/-- Go `func (q *SB) GetArgs() []interface{}`. -/
def GetArgs (q : SB) : List Val := q.args

/-- Go `func (q *SB) Limit(count int, offset ...int) *SB`. -/
def Limit (q : SB) (count : Int) (offset : List Int) : SB :=
  match offset with
  | o :: _ => { q with limit := Itoa o ++ ",".toList ++ Itoa count }
  | [] => { q with limit := "0,".toList ++ Itoa count }

/-! ## Concrete environment and builders used in evaluations -/

/-- The package variables at their declared initial values, `WrapSymbol` a
backquote and `DBType = "mysql"`; the float formatters print a fixed text, no
evaluation below formats a float. -/
def env0 : Env where
  WrapSymbol := "`".toList
  DBType := "mysql".toList
  F32toA := fun _ => "0".toList
  F64toA := fun _ => "0".toList
  F32toA_decimal := fun _ => by
    show marker ∉ "0".toList
    decide
  F64toA_decimal := fun _ => by
    show marker ∉ "0".toList
    decide

/-- The builder returned by `Delete()`, with `Obj` a nil pointer. -/
def Delete : SB :=
  { db := none, t := TypeDelete, field := [], table := [], where_ := [], group := [],
    order := [], limit := [], values := [], values2 := [], ignore := false,
    fullsql := false, debug := false, unsafe_ := false, args := [] }

/-- The builder returned by `Update()`, with `Obj` a nil pointer. -/
def Update : SB := { Delete with t := TypeUpdate }

/-- The builder returned by `Insert(ignore...)`, with `Obj` a nil pointer. -/
def Insert (ignore : List Bool) : SB :=
  { Delete with t := TypeInsert,
                ignore := decide (ignore.length = 1 ∧ ignore.head? = some true) }

/-- The builder returned by `Select(str...)`, with `Obj` a nil pointer. -/
def Select (str : List Str) : SB :=
  { Delete with t := TypeSelect,
                field := match str with
                  | [s] => s
                  | _ => "*".toList }

/-- `Update().Table("t").Where("id=1").Value({n: 3})`. -/
def updateT : SB :=
  { Update with table := "t".toList, where_ := "id=1".toList,
                values := [("n".toList, Val.int 3)] }

/-- `Insert().Table("t").Value({id: 7, name: "a", hits: IncVal{2, ""}})`. -/
def insertT : SB :=
  { Insert [] with table := "t".toList,
                   values := [("id".toList, Val.int 7), ("name".toList, Val.string "a".toList),
                              ("hits".toList, Val.incVal ⟨2, []⟩)] }

/-! ## The spec's wording of the string literal -/

/-- Section 4.2 of the spec, "embedded single quotes are removed": the text
without its single quotes. -/
def stripQuotes (s : Str) : Str := s.filter fun c => c ≠ '\''

/-- Section 4.2 of the spec, "embedded backslashes are doubled": every backslash
is written twice, every other character once. -/
def doubleBackslashes (s : Str) : Str :=
  (s.map fun c => if c = '\\' then ['\\', '\\'] else [c]).flatten

/-- `Update().Table("t").Where("id=1").Value({n: "a?"})`. -/
def updateMark : SB :=
  { Update with table := "t".toList, where_ := "id=1".toList,
                values := [("n".toList, Val.string "a?".toList)] }

/-- A value of a type that `FullSql` does not render, a `time.Time`. -/
def timeVal : Val := Val.other "time.Time".toList "0001-01-01 00:00:00 +0000 UTC".toList

/-- `Select().Table("t").Where("id=1")` on a database whose dialect is "mssql". -/
def selectMssql : SB :=
  { Select [] with db := some ⟨"mssql".toList⟩, table := "t".toList, where_ := "id=1".toList }

/-! ## Bound arguments and assignments, as the loops produce them -/

/-- The type assertion `v.(IncVal)` of the loops: whether the value is an
`IncVal`. -/
def Val.isIncVal : Val → Bool
  | .incVal _ => true
  | _ => false

/-- The plain (non-`IncVal`) values of a value set, in visiting order. -/
def plainValues (vals : SBValues) : List Val :=
  (vals.map Prod.snd).filter fun v => !v.isIncVal

/-- The argument that the loop of the `TypeInsert` case binds for a stored value:
the delta of an `IncVal` as an `int64`, any other value itself. -/
def insertArg : Val → Val
  | .incVal iv => Val.int64 iv.Val
  | v => v

/-- The text that the loop body of `buildUpdateParams` adds for an entry after the
separating comma. -/
def assignment (env : Env) (kv : Str × Val) : Str :=
  match kv.2 with
  | .incVal iv =>
    env.WrapSymbol ++ kv.1 ++ env.WrapSymbol ++ "=".toList
      ++ (if iv.BaseField = [] then kv.1 else iv.BaseField)
      ++ (if iv.Val ≥ 0 then "+".toList ++ I64toA iv.Val else I64toA iv.Val)
  | _ => env.WrapSymbol ++ kv.1 ++ env.WrapSymbol ++ "=?".toList

/-! ## `Exec` -/

/-- Go `type SBResult struct`. -/
structure SBResult where
  Success : Bool
  Code : Int
  Msg : Str
  LastID : Int
  Affected : Int
  Sql : Str
  deriving DecidableEq, Repr

/-- Go `sql.Result` of `database/sql`: the outcomes of its two methods. -/
structure SqlResult where
  LastInsertId : Except Err Int
  RowsAffected : Except Err Int

/-- Go `reflect.TypeOf(v).String()` and the `%v` text of a value that reaches the
`default` branch of `FullSql`; the values of the rendered types never reach it and
are given empty texts. -/
def typeAndText : Val → Str × Str
  | .incVal iv =>
    ("db.IncVal".toList, "\x7b".toList ++ intToA iv.Val ++ " ".toList ++ iv.BaseField
      ++ "\x7d".toList)
  | .other typeName text => (typeName, text)
  | _ => ([], [])

/-- Go `err.Error()`. -/
def Err.Error : Err → Str
  | .New text => text
  | .invalidArg v sql =>
    "invalid sql argument type: ".toList ++ (typeAndText v).1 ++ " => ".toList
      ++ (typeAndText v).2 ++ " (sql: ".toList ++ sql ++ ")".toList

/-- Modelled from the spec: the method `Exec` of `Database` is not among the
source files; section 6, "Exec(sqlText string, args ...any) (result, error)".  It is
a parameter: the outcome of the call on a database, a statement and its
arguments. -/
abbrev Collaborator := Database → Str → List Val → Except Err SqlResult

/-- The end of `Exec`, after the call of the collaborator returned `ret, err`. -/
def execFinish (env : Env) (q : SB) (sql : Str) (r : Except Err SqlResult) : SBResult :=
  let sbRet : SBResult :=
    { Success := false, Code := 0, Msg := [], LastID := 0, Affected := 0, Sql := sql }
  match r with
  | .error e => { sbRet with Msg := e.Error }
  | .ok ret =>
    let sbRet := { sbRet with Success := true }
    if q.t = TypeInsert then
      if env.DBType = "mysql".toList then
        match ret.LastInsertId with
        | .ok last => { sbRet with LastID := last }
        | .error _ => sbRet
      else sbRet
    else if q.t = TypeDelete ∨ q.t = TypeUpdate ∨ q.t = TypeInsertUpdate then
      match ret.RowsAffected with
      | .ok aff => { sbRet with Affected := aff }
      | .error _ => sbRet
    else sbRet

/-- Go `func (q *SB) Exec(args ...interface{}) *SBResult`: the builder after the
call, the result, and the calls made to the collaborator (statement and arguments);
`none` when the call panics, which it does when `ToSql` does or when the
collaborator is to be called on a nil `q.db`.  The `log.Println` of the debug mode
does not act on any of them and is left out. -/
def Exec (env : Env) (dbExec : Collaborator) (q : SB) (args : List Val) :
    Option (SB × SBResult × List (Str × List Val)) :=
  match ToSql env q [] with
  | none => none
  | some (q1, sql, some e) =>
    some (q1, { Success := false, Code := 0, Msg := e.Error, LastID := 0, Affected := 0,
                Sql := sql }, [])
  | some (q1, sql, none) =>
    if q1.fullsql then
      match FullSql env sql (q1.args ++ args) with
      | (_, some e) =>
        some (q1, { Success := false, Code := 0, Msg := e.Error, LastID := 0, Affected := 0,
                    Sql := sql }, [])
      | (sqlStr, none) =>
        match q1.db with
        | none => none
        | some db => some (q1, execFinish env q1 sql (dbExec db sqlStr []), [(sqlStr, [])])
    else
      match q1.db with
      | none => none
      | some db =>
        some (q1, execFinish env q1 sql (dbExec db sql (q1.args ++ args)),
          [(sql, q1.args ++ args)])

/-! ## Runs of backslashes -/

/-- The lengths of the maximal runs of backslashes of a text, from left to right,
`cur` being the length of the run that is open on the left. -/
def backslashRunsFrom (cur : Nat) : Str → List Nat
  | [] => if cur = 0 then [] else [cur]
  | c :: cs =>
    if c = '\\' then backslashRunsFrom (cur + 1) cs
    else if cur = 0 then backslashRunsFrom 0 cs
    else cur :: backslashRunsFrom 0 cs

/-- The lengths of the maximal runs of backslashes of a text. -/
def backslashRuns (s : Str) : List Nat := backslashRunsFrom 0 s

/-- `Update().Table("t").Where("id=1").Value({n: 3, score: IncVal{5, ""}, name: "a"})`,
the entries visited in that order. -/
def updateInc : SB :=
  { Update with table := "t".toList, where_ := "id=1".toList,
                values := [("n".toList, Val.int 3), ("score".toList, Val.incVal ⟨5, []⟩),
                           ("name".toList, Val.string "a".toList)] }

/-- `Insert(true).Table("t").Value({id: 7})`. -/
def insertIgnore : SB :=
  { Insert [true] with table := "t".toList, values := [("id".toList, Val.int 7)] }

/-- The builder returned by `InsertUpdate()`, with `Obj` a nil pointer. -/
def InsertUpdate : SB := { Delete with t := TypeInsertUpdate }

/-- `InsertUpdate().Table("t").Value({a: IncVal{5, ""}, b: 1}).Value2({b: 1,
c: IncVal{-2, ""}})`, the entries visited in that order. -/
def upsertT : SB :=
  { InsertUpdate with table := "t".toList,
                      values := [("a".toList, Val.incVal ⟨5, []⟩), ("b".toList, Val.int 1)],
                      values2 := [("b".toList, Val.int 1), ("c".toList, Val.incVal ⟨-2, []⟩)] }

/-- A collaborator whose `Exec` always succeeds, with last insert id 42 and one row
affected. -/
def okCollaborator : Collaborator :=
  fun _ _ _ => .ok { LastInsertId := .ok 42, RowsAffected := .ok 1 }

/-- The builder `insertT` on a database whose dialect is "mysql". -/
def insertMysql : SB := { insertT with db := some ⟨"mysql".toList⟩ }

/-- `Insert().Table("t").Value({a: 1, b: 2})`, the loop visiting a and then b. -/
def insertAB : SB :=
  { Insert [] with table := "t".toList,
                   values := [("a".toList, Val.int 1), ("b".toList, Val.int 2)] }

/-- The builder `insertAB` after a first `ToSql`, the loop of the next call
visiting b and then a. -/
def insertBA : SB :=
  { insertAB with args := [Val.int 1, Val.int 2],
                  values := [("b".toList, Val.int 2), ("a".toList, Val.int 1)] }

/-- `Select().Table("t").Where("name=?")` on a database whose dialect is "mysql". -/
def selectMysql : SB :=
  { Select [] with db := some ⟨"mysql".toList⟩, table := "t".toList,
                   where_ := "name=?".toList }

/-- `Update().DB(db).Table("t").Where("id=?").Value({n: "x"}).FullSql()` on a
database whose dialect is "mysql". -/
def updateFull : SB :=
  { Update with db := some ⟨"mysql".toList⟩, table := "t".toList, where_ := "id=?".toList,
                values := [("n".toList, Val.string "x".toList)], fullsql := true }

end Db

/-! # Theorems -/

namespace Db

/-! ## General lemmas -/

theorem renderFlag_iff (r : List Bool) :
    (r.length = 1 ∧ r.head? = some true) ↔ r = [true] := by
  constructor
  · intro h
    match r, h with
    | [b], h => simpa using h.2
  · rintro rfl
    simp

theorem toSql_of_switch_ok (env : Env) (q q1 : SB) (str : Str) (r : List Bool)
    (hr : r ≠ [true]) (h : ToSqlSwitch env { q with args := [] } = some (q1, str, none)) :
    ToSql env q r = some (q1, str, none) := by
  have hr2 : ¬ (r.length = 1 ∧ r.head? = some true) := fun h => hr ((renderFlag_iff r).1 h)
  simp only [ToSql, h, if_neg hr2]

theorem toSql_of_switch_err (env : Env) (q q1 : SB) (str : Str) (e : Err) (r : List Bool)
    (h : ToSqlSwitch env { q with args := [] } = some (q1, str, some e)) :
    ToSql env q r = some (q1, str, some e) := by
  simp only [ToSql, h]

/-! ## C1 -/

/-- C1, as stated, fails: the builder returned by `Delete()` has an empty filter
clause and no unsafe flag, and `ToSql` on it returns the empty statement and no
error, because its table is empty. -/
theorem C1_counterexample :
    Delete.t = TypeDelete ∧ Delete.where_ = [] ∧ Delete.unsafe_ = false ∧
      ToSql env0 Delete [] = some (Delete, [], none) := by
  decide

/-- C1, amended: for every builder of kind Delete or Update with a non-empty table,
an empty filter clause and the unsafe flag not set, `ToSql` (whatever its option)
returns the empty statement and the unsafe-bulk error of its kind, with no argument
bound. -/
theorem C1_unsafe_bulk_rejected (env : Env) (q : SB) (r : List Bool)
    (htable : q.table ≠ []) (hwhere : q.where_ = []) (hflag : q.unsafe_ = false) :
    (q.t = TypeDelete → ToSql env q r =
      some ({ q with args := [] }, [], some (Err.New "deleting all data is not safe".toList))) ∧
    (q.t = TypeUpdate → ToSql env q r =
      some ({ q with args := [] }, [], some (Err.New "updating all data is not safe".toList))) := by
  constructor
  · intro ht
    apply toSql_of_switch_err
    simp [ToSqlSwitch, ht, TypeInsert, TypeDelete, htable, hwhere, hflag]
  · intro ht
    apply toSql_of_switch_err
    simp [ToSqlSwitch, ht, TypeInsert, TypeDelete, TypeUpdate, htable, hwhere, hflag]

theorem C1_unsafe_bulk_rejected_witness :
    ToSql env0 { Delete with table := "t".toList } [] =
      some ({ Delete with table := "t".toList }, [],
        some (Err.New "deleting all data is not safe".toList)) ∧
    ToSql env0 { Update with table := "t".toList } [true] =
      some ({ Update with table := "t".toList }, [],
        some (Err.New "updating all data is not safe".toList)) :=
  ⟨(C1_unsafe_bulk_rejected env0 { Delete with table := "t".toList } []
      (by decide) (by decide) (by decide)).1 (by decide),
   (C1_unsafe_bulk_rejected env0 { Update with table := "t".toList } [true]
      (by decide) (by decide) (by decide)).2 (by decide)⟩

/-! ## C2 -/

/-- C2: for every builder of kind Delete or Update with a non-empty filter clause,
`ToSql` without the render-literal option returns no error, whatever the table,
the value set and the unsafe flag are; and when the table is non-empty the returned
statement ends with " WHERE " followed by the filter clause. -/
theorem C2_filtered_delete_update_succeeds (env : Env) (q : SB) (r : List Bool)
    (hkind : q.t = TypeDelete ∨ q.t = TypeUpdate) (hwhere : q.where_ ≠ [])
    (hr : r ≠ [true]) :
    ∃ q1 str, ToSql env q r = some (q1, str, none) ∧
      (q.table ≠ [] → (" WHERE ".toList ++ q.where_) <:+ str) := by
  by_cases htable : q.table = []
  · refine ⟨{ q with args := [] }, [], ?_, fun h => absurd htable h⟩
    apply toSql_of_switch_ok _ _ _ _ _ hr
    rcases hkind with ht | ht <;>
      simp [ToSqlSwitch, ht, TypeInsert, TypeDelete, TypeUpdate, htable]
  · rcases hkind with ht | ht
    · refine ⟨{ q with args := [] },
        "DELETE ".toList ++ q.table ++ (" FROM ".toList ++ q.table)
          ++ (" WHERE ".toList ++ q.where_), ?_, fun _ => List.suffix_append _ _⟩
      apply toSql_of_switch_ok _ _ _ _ _ hr
      simp [ToSqlSwitch, ht, TypeInsert, TypeDelete, htable, hwhere]
    · refine ⟨(buildUpdateParams env { q with args := [] } q.values).1,
        "UPDATE ".toList ++ q.table
          ++ (" SET ".toList ++ Substr (buildUpdateParams env { q with args := [] } q.values).2 1)
          ++ (" WHERE ".toList ++ q.where_), ?_, fun _ => List.suffix_append _ _⟩
      apply toSql_of_switch_ok _ _ _ _ _ hr
      simp [ToSqlSwitch, ht, TypeInsert, TypeDelete, TypeUpdate, htable, hwhere]

theorem C2_filtered_delete_update_succeeds_witness :
    ∃ q1 str, ToSql env0 updateT [] = some (q1, str, none) ∧
      (updateT.table ≠ [] → (" WHERE ".toList ++ updateT.where_) <:+ str) :=
  C2_filtered_delete_update_succeeds env0 updateT []
    (Or.inr (by decide)) (by decide) (by decide)

/-! ## C3 -/

/-- The argument that the `TypeInsert` loop binds for a stored value. -/
theorem insertStep_eq (env : Env) (st : Str × Str × List Val) (kv : Str × Val) :
    insertStep env st kv =
      (st.1 ++ (",".toList ++ env.WrapSymbol ++ kv.1 ++ env.WrapSymbol),
       st.2.1 ++ ",?".toList,
       st.2.2 ++ [match kv.2 with
                  | .incVal iv => Val.int64 iv.Val
                  | v => v]) := by
  unfold insertStep
  cases kv.2 <;> rfl

theorem insert_foldl (env : Env) (vals : SBValues) (st : Str × Str × List Val) :
    vals.foldl (insertStep env) st =
      (st.1 ++ (vals.map fun kv => ",".toList ++ (env.WrapSymbol ++ kv.1 ++ env.WrapSymbol)).flatten,
       st.2.1 ++ (List.replicate vals.length ",?".toList).flatten,
       st.2.2 ++ vals.map fun kv =>
         match kv.2 with
         | .incVal iv => Val.int64 iv.Val
         | v => v) := by
  induction vals generalizing st with
  | nil => simp
  | cons kv vals ih =>
    rw [List.foldl_cons, ih, insertStep_eq]
    simp [List.replicate_succ, List.append_assoc]

theorem drop_flatten_eq_intercalate (sep : Str) (l : List Str) (hl : l ≠ []) :
    ((l.map fun x => sep ++ x).flatten).drop sep.length = sep.intercalate l := by
  induction l with
  | nil => exact absurd rfl hl
  | cons x l ih =>
    cases l with
    | nil => simp [List.intercalate]
    | cons y l =>
      have ih2 := ih (by simp)
      simp only [List.map_cons, List.flatten_cons, List.intercalate,
        List.intersperse_cons₂] at ih2 ⊢
      simp only [List.append_assoc, List.drop_left] at ih2 ⊢
      rw [← ih2]

/-- C3: for every Insert builder with a non-empty table and a non-empty value set,
`ToSql` (without the render-literal option) succeeds; the statement is the INSERT
head, then the quoted field names joined by commas, then the `?` placeholders
joined by commas; there are as many field names as placeholders, namely the number
of entries of the value set, and `GetArgs` has that same length. -/
theorem C3_insert_fields_placeholders_args (env : Env) (q : SB) (r : List Bool)
    (hkind : q.t = TypeInsert) (htable : q.table ≠ []) (hvalues : q.values ≠ [])
    (hr : r ≠ [true]) :
    ∃ (q1 : SB) (fields placeholders : List Str),
      ToSql env q r = some (q1,
        (if q.ignore then "INSERT IGNORE INTO ".toList else "INSERT INTO ".toList) ++ q.table
          ++ " (".toList ++ ",".toList.intercalate fields
          ++ ") VALUES (".toList ++ ",".toList.intercalate placeholders ++ ")".toList, none) ∧
      fields = q.values.map (fun kv => env.WrapSymbol ++ kv.1 ++ env.WrapSymbol) ∧
      placeholders = List.replicate q.values.length "?".toList ∧
      fields.length = q.values.length ∧
      placeholders.length = q.values.length ∧
      (GetArgs q1).length = q.values.length := by
  refine ⟨{ q with args := q.values.map fun kv =>
              match kv.2 with
              | .incVal iv => Val.int64 iv.Val
              | v => v }, _, _, ?_, rfl, rfl, by simp, by simp, by simp [GetArgs]⟩
  apply toSql_of_switch_ok _ _ _ _ _ hr
  have hlen : q.values.length ≠ 0 := fun h => hvalues (List.length_eq_zero.1 h)
  have hf := drop_flatten_eq_intercalate ",".toList
    (q.values.map fun kv => env.WrapSymbol ++ kv.1 ++ env.WrapSymbol) (by simpa using hvalues)
  have hp := drop_flatten_eq_intercalate ",".toList
    (List.replicate q.values.length "?".toList) (by simpa using hvalues)
  simp only [List.map_map, List.map_replicate] at hf hp
  simp only [ToSqlSwitch, hkind, if_true, if_neg htable, if_neg hlen, insert_foldl, Substr,
    List.nil_append]
  have e1 : (",".toList.length) = 1 := rfl
  rw [e1] at hf hp
  have hf2 : (List.map (fun kv : Str × Val => ",".toList ++ (env.WrapSymbol ++ kv.1 ++ env.WrapSymbol))
      q.values) = List.map ((fun x => ",".toList ++ x) ∘
        fun kv : Str × Val => env.WrapSymbol ++ kv.1 ++ env.WrapSymbol) q.values := rfl
  have hp2 : (",?".toList : Str) = ",".toList ++ "?".toList := rfl
  rw [hf2, hf, hp2, hp]
  cases q.ignore <;> simp [List.append_assoc]

theorem C3_insert_fields_placeholders_args_witness :
    ∃ (q1 : SB) (fields placeholders : List Str),
      ToSql env0 insertT [] = some (q1,
        (if insertT.ignore then "INSERT IGNORE INTO ".toList else "INSERT INTO ".toList)
          ++ insertT.table
          ++ " (".toList ++ ",".toList.intercalate fields
          ++ ") VALUES (".toList ++ ",".toList.intercalate placeholders ++ ")".toList, none) ∧
      fields = insertT.values.map (fun kv => env0.WrapSymbol ++ kv.1 ++ env0.WrapSymbol) ∧
      placeholders = List.replicate insertT.values.length "?".toList ∧
      fields.length = insertT.values.length ∧
      placeholders.length = insertT.values.length ∧
      (GetArgs q1).length = insertT.values.length :=
  C3_insert_fields_placeholders_args env0 insertT [] (by decide) (by decide) (by decide)
    (by decide)

/-! ## Lemmas on `Split`, `Replace` and the decimal texts -/

theorem split_ne_nil (sep : Char) (s : Str) : Split sep s ≠ [] := by
  induction s with
  | nil => simp [Split]
  | cons c cs ih =>
    unfold Split
    split
    · simp
    · split <;> simp

theorem split_of_not_mem (sep : Char) (s : Str) (h : sep ∉ s) : Split sep s = [s] := by
  induction s with
  | nil => rfl
  | cons c cs ih =>
    have hc : c ≠ sep := fun e => h (by simp [e])
    have hcs : sep ∉ cs := fun e => h (List.mem_cons_of_mem _ e)
    simp [Split, hc, ih hcs]

theorem split_append (sep : Char) (a b : Str) (h : sep ∉ a) :
    Split sep (a ++ sep :: b) = a :: Split sep b := by
  induction a with
  | nil => simp [Split]
  | cons c cs ih =>
    have hc : c ≠ sep := fun e => h (by simp [e])
    have hcs : sep ∉ cs := fun e => h (List.mem_cons_of_mem _ e)
    simp [Split, hc, ih hcs]

theorem split_length (sep : Char) (s : Str) : (Split sep s).length = s.count sep + 1 := by
  induction s with
  | nil => rfl
  | cons c cs ih =>
    unfold Split
    by_cases hc : c = sep
    · subst hc
      simp [ih]
    · have hc2 : (c == sep) = false := by simpa using hc
      rw [if_neg hc, List.count_cons, hc2]
      cases hs : Split sep cs with
      | nil => exact absurd hs (split_ne_nil sep cs)
      | cons f fs =>
        rw [hs] at ih
        simpa using ih

theorem split_no_sep (sep : Char) (s : Str) : ∀ f ∈ Split sep s, sep ∉ f := by
  induction s with
  | nil => simp [Split]
  | cons c cs ih =>
    unfold Split
    by_cases hc : c = sep
    · subst hc
      intro f hf
      rw [if_pos rfl] at hf
      rcases List.mem_cons.1 hf with rfl | hf
      · simp
      · exact ih f hf
    · rw [if_neg hc]
      cases hs : Split sep cs with
      | nil => exact absurd hs (split_ne_nil sep cs)
      | cons g gs =>
        rw [hs] at ih
        intro f hf
        rcases List.mem_cons.1 hf with rfl | hf
        · intro hmem
          rcases List.mem_cons.1 hmem with e | e
          · exact hc e.symm
          · exact ih g (List.mem_cons_self _ _) e
        · exact ih f (List.mem_cons_of_mem _ hf)

theorem ite_ne_marker (p : Prop) [Decidable p] (a b : Char) (ha : a ≠ marker)
    (hb : b ≠ marker) : (if p then a else b) ≠ marker := by
  split <;> assumption

theorem digitChar_ne_marker (n : Nat) : Nat.digitChar n ≠ marker := by
  unfold Nat.digitChar
  repeat refine ite_ne_marker _ _ _ (by decide) ?_
  decide

theorem toDigitsCore_no_marker (fuel n : Nat) (acc : List Char) (h : marker ∉ acc) :
    marker ∉ Nat.toDigitsCore 10 fuel n acc := by
  induction fuel generalizing n acc with
  | zero => simpa [Nat.toDigitsCore] using h
  | succ fuel ih =>
    have hacc : marker ∉ Nat.digitChar (n % 10) :: acc := by
      intro hm
      rcases List.mem_cons.1 hm with e | e
      · exact digitChar_ne_marker _ e.symm
      · exact h e
    unfold Nat.toDigitsCore
    dsimp only
    split
    · exact hacc
    · exact ih _ _ hacc

theorem natToA_no_marker (n : Nat) : marker ∉ natToA n :=
  toDigitsCore_no_marker _ _ _ (by simp)

theorem intToA_no_marker (i : Int) : marker ∉ intToA i := by
  unfold intToA
  split
  · intro hm
    rcases List.mem_cons.1 hm with e | e
    · exact absurd e (by decide)
    · exact natToA_no_marker _ e
  · exact natToA_no_marker _

theorem replace_no_marker (s : Str) (old : Char) (new : Str) (hs : marker ∉ s)
    (hn : marker ∉ new) : marker ∉ Replace s old new := by
  induction s with
  | nil => simp [Replace]
  | cons c cs ih =>
    have hc : marker ≠ c := fun e => hs (by simp [e])
    have hcs : marker ∉ cs := fun e => hs (List.mem_cons_of_mem _ e)
    unfold Replace
    split
    · intro hm
      rcases List.mem_append.1 hm with e | e
      · exact hn e
      · exact ih hcs e
    · intro hm
      rcases List.mem_cons.1 hm with e | e
      · exact hc e
      · exact ih hcs e

/-! ## Lemmas on the loop of `FullSql` -/

theorem fullSql_of_marker (env : Env) (str : Str) (args : List Val) (h : marker ∈ str) :
    FullSql env str args = FullSqlLoop env str args (Split marker str) 0 [] := by
  have hc : Contains str marker = true := by simpa [Contains] using h
  simp [FullSql, hc]

theorem fullSqlLoop_step_some (env : Env) (str : Str) (args : List Val) (son : Str)
    (sons : List Str) (k : Nat) (ret : Str) (v : Val) (t : Str)
    (hv : args[k]? = some v) (ht : literal env v = some t) :
    FullSqlLoop env str args (son :: sons) k ret =
      FullSqlLoop env str args sons (k + 1) (ret ++ son ++ t) := by
  have hk : k < args.length := by
    rcases List.getElem?_eq_some.1 hv with ⟨h, _⟩
    exact h
  have hg : args.get ⟨k, hk⟩ = v := by
    rcases List.getElem?_eq_some.1 hv with ⟨_, e⟩
    simpa using e
  rw [FullSqlLoop, dif_pos hk]
  simp only [hg, ht]

theorem fullSqlLoop_step_none (env : Env) (str : Str) (args : List Val) (son : Str)
    (sons : List Str) (k : Nat) (ret : Str) (v : Val)
    (hv : args[k]? = some v) (ht : literal env v = none) :
    FullSqlLoop env str args (son :: sons) k ret = ([], some (Err.invalidArg v str)) := by
  have hk : k < args.length := by
    rcases List.getElem?_eq_some.1 hv with ⟨h, _⟩
    exact h
  have hg : args.get ⟨k, hk⟩ = v := by
    rcases List.getElem?_eq_some.1 hv with ⟨_, e⟩
    simpa using e
  rw [FullSqlLoop, dif_pos hk]
  simp only [hg, ht]

theorem fullSqlLoop_step_end (env : Env) (str : Str) (args : List Val) (son : Str)
    (sons : List Str) (k : Nat) (ret : Str) (hk : args.length ≤ k) :
    FullSqlLoop env str args (son :: sons) k ret =
      FullSqlLoop env str args sons k (ret ++ son) := by
  rw [FullSqlLoop, dif_neg (by omega)]

/-- An unsupported argument at an index the loop reaches makes it stop with the
error and the empty string. -/
theorem fullSqlLoop_err (env : Env) (str : Str) (args : List Val) (sons : List Str) :
    ∀ (k : Nat) (ret : Str),
      (∃ i v, k ≤ i ∧ i < k + sons.length ∧ args[i]? = some v ∧ literal env v = none) →
      ∃ v, v ∈ args ∧ literal env v = none ∧
        FullSqlLoop env str args sons k ret = ([], some (Err.invalidArg v str)) := by
  induction sons with
  | nil =>
    rintro k ret ⟨i, v, h1, h2, _, _⟩
    simp at h2
    omega
  | cons son sons ih =>
    rintro k ret ⟨i, v, h1, h2, h3, h4⟩
    have hi : i < args.length := by
      rcases List.getElem?_eq_some.1 h3 with ⟨h, _⟩
      exact h
    have hk : k < args.length := by omega
    cases hl : literal env args[k] with
    | none =>
      exact ⟨args[k], List.getElem_mem _, hl,
        fullSqlLoop_step_none env str args son sons k ret _ (List.getElem?_eq_getElem hk) hl⟩
    | some t =>
      rw [fullSqlLoop_step_some env str args son sons k ret _ t (List.getElem?_eq_getElem hk) hl]
      apply ih
      refine ⟨i, v, ?_, ?_, h3, h4⟩
      · rcases Nat.lt_or_ge k i with h | h
        · exact h
        · have e : i = k := by omega
          subst e
          rw [List.getElem?_eq_getElem hk] at h3
          cases h3
          rw [hl] at h4
          cases h4
      · simp at h2
        omega

/-- When every argument the loop reaches is of a supported type, the loop ends
without error. -/
theorem fullSqlLoop_ok (env : Env) (str : Str) (args : List Val) (sons : List Str) :
    ∀ (k : Nat) (ret : Str),
      (∀ i v, k ≤ i → i < k + sons.length → args[i]? = some v → (literal env v).isSome) →
      ∃ out, FullSqlLoop env str args sons k ret = (out, none) := by
  induction sons with
  | nil =>
    intro k ret _
    exact ⟨ret, rfl⟩
  | cons son sons ih =>
    intro k ret h
    by_cases hk : k < args.length
    · have hs := h k args[k] (Nat.le_refl _) (by simp) (List.getElem?_eq_getElem hk)
      rcases Option.isSome_iff_exists.1 hs with ⟨t, ht⟩
      rw [fullSqlLoop_step_some env str args son sons k ret _ t (List.getElem?_eq_getElem hk) ht]
      apply ih
      intro i v h1 h2 h3
      exact h i v (by omega) (by simp; omega) h3
    · rw [fullSqlLoop_step_end env str args son sons k ret (by omega)]
      apply ih
      intro i v h1 h2 h3
      exact h i v h1 (by simp; omega) h3

/-- The loop adds no placeholder marker when neither the fragments nor the
renderings of the arguments contain one. -/
theorem fullSqlLoop_no_marker (env : Env) (str : Str) (args : List Val) (sons : List Str)
    (hargs : ∀ v ∈ args, ∀ t, literal env v = some t → marker ∉ t) :
    ∀ (k : Nat) (ret : Str), (∀ f ∈ sons, marker ∉ f) → marker ∉ ret →
      marker ∉ (FullSqlLoop env str args sons k ret).1 := by
  induction sons with
  | nil =>
    intro k ret _ hret
    simpa [FullSqlLoop] using hret
  | cons son sons ih =>
    intro k ret hsons hret
    have hson : marker ∉ son := hsons son (List.mem_cons_self _ _)
    have hrest : ∀ f ∈ sons, marker ∉ f := fun f hf => hsons f (List.mem_cons_of_mem _ hf)
    by_cases hk : k < args.length
    · cases hl : literal env args[k] with
      | none =>
        rw [fullSqlLoop_step_none env str args son sons k ret _ (List.getElem?_eq_getElem hk) hl]
        simp
      | some t =>
        rw [fullSqlLoop_step_some env str args son sons k ret _ t
          (List.getElem?_eq_getElem hk) hl]
        apply ih _ _ hrest
        have ht := hargs _ (List.getElem_mem hk) t hl
        simp only [List.mem_append, not_or]
        exact ⟨⟨hret, hson⟩, ht⟩
    · rw [fullSqlLoop_step_end env str args son sons k ret (by omega)]
      apply ih _ _ hrest
      simp only [List.mem_append, not_or]
      exact ⟨hret, hson⟩

/-- The rendering of an argument contains no placeholder marker, unless the
argument is a string that contains one. -/
theorem literal_no_marker (env : Env) (v : Val) (t : Str)
    (hv : ∀ s, v = Val.string s → marker ∉ s) (ht : literal env v = some t) :
    marker ∉ t := by
  cases v with
  | int i => cases ht; exact intToA_no_marker i
  | int8 i => cases ht; exact intToA_no_marker i
  | int16 i => cases ht; exact intToA_no_marker i
  | int32 i => cases ht; exact intToA_no_marker i
  | int64 i => cases ht; exact intToA_no_marker i
  | uint n => cases ht; exact natToA_no_marker n
  | uint8 n => cases ht; exact natToA_no_marker n
  | uint16 n => cases ht; exact natToA_no_marker n
  | uint32 n => cases ht; exact natToA_no_marker n
  | uint64 n => cases ht; exact natToA_no_marker n
  | float32 b => cases ht; exact env.F32toA_decimal b
  | float64 b => cases ht; exact env.F64toA_decimal b
  | bigInt o =>
    cases o with
    | none => cases ht; decide
    | some i => cases ht; exact intToA_no_marker i
  | bool b => cases b <;> (cases ht; decide)
  | string s =>
    cases ht
    have h1 := replace_no_marker (Replace s '\'' []) '\\' "\\\\".toList
      (replace_no_marker s '\'' [] (hv s rfl) (by simp)) (by decide)
    intro hm
    rcases List.mem_append.1 hm with e | e
    · rcases List.mem_append.1 e with e | e
      · exact absurd e (by decide)
      · exact h1 e
    · exact absurd e (by decide)
  | nil => cases ht; decide
  | incVal iv => cases ht
  | other a b => cases ht

theorem fullSql_no_marker (env : Env) (str : Str) (args : List Val)
    (hargs : ∀ s, Val.string s ∈ args → marker ∉ s) :
    marker ∉ (FullSql env str args).1 := by
  by_cases h : marker ∈ str
  · rw [fullSql_of_marker env str args h]
    apply fullSqlLoop_no_marker
    · intro v hv t ht
      exact literal_no_marker env v t (fun s e => hargs s (e ▸ hv)) ht
    · exact split_no_sep marker str
    · simp
  · have hc : Contains str marker = false := by simpa [Contains] using h
    simpa [FullSql, hc] using h

theorem fullSql_single (env : Env) (pre post : Str) (a : Val) (t : Str)
    (hpre : marker ∉ pre) (hpost : marker ∉ post) (hl : literal env a = some t) :
    FullSql env (pre ++ marker :: post) [a] = (pre ++ t ++ post, none) := by
  rw [fullSql_of_marker env _ _ (by simp), split_append marker pre post hpre,
    split_of_not_mem marker post hpost,
    fullSqlLoop_step_some env _ [a] pre [post] 0 [] a t rfl hl,
    fullSqlLoop_step_end env _ [a] post [] 1 _ (by simp)]
  simp [FullSqlLoop]

theorem replace_quote_eq (s : Str) : Replace s '\'' [] = stripQuotes s := by
  induction s with
  | nil => rfl
  | cons c cs ih =>
    unfold Replace stripQuotes
    by_cases hc : c = '\''
    · simp [hc, ih, stripQuotes]
    · simp [hc, ih, stripQuotes]

theorem replace_backslash_eq (s : Str) :
    Replace s '\\' "\\\\".toList = doubleBackslashes s := by
  have e : ("\\\\".toList : Str) = ['\\', '\\'] := rfl
  rw [e]
  induction s with
  | nil => rfl
  | cons c cs ih =>
    unfold Replace doubleBackslashes
    by_cases hc : c = '\\'
    · simp [hc, ih, doubleBackslashes]
    · simp [hc, ih, doubleBackslashes]

theorem fullSql_of_no_marker (env : Env) (str : Str) (args : List Val) (h : marker ∉ str) :
    FullSql env str args = (str, none) := by
  have hc : Contains str marker = false := by simpa [Contains] using h
  simp [FullSql, hc]

/-! ## C4 -/

/-- C4 (the code departs from the claim): the template "id=?" has N = 1 marker and
the fragments "id=" and "".  With the arguments 7 and 8, `FullSql` returns "id=78"
and no error: after the last fragment it appends the rendering of the second
argument, where the claim inserts renderings only between fragments and gives
"id=7". -/
theorem C4_argument_appended_after_last_fragment :
    Split marker "id=?".toList = ["id=".toList, []] ∧
    literal env0 (Val.int 7) = some "7".toList ∧
    literal env0 (Val.int 8) = some "8".toList ∧
    FullSql env0 "id=?".toList [Val.int 7, Val.int 8] = ("id=78".toList, none) ∧
    FullSql env0 "id=?".toList [Val.int 7, Val.int 8] ≠ ("id=7".toList, none) := by
  decide

/-! ## C5 -/

/-- C5: in a template with one marker, `FullSql` renders a string argument as a
single quote, the string with every single quote removed and then every backslash
doubled, and a single quote; it renders an integer argument of any width as its
decimal text without quotes.  `FullSql("SELECT * FROM t WHERE id=? AND name=?", 7,
"O'Brien")` returns `SELECT * FROM t WHERE id=7 AND name='OBrien'` and no error. -/
theorem C5_string_and_integer_literals (env : Env) (pre post : Str)
    (hpre : marker ∉ pre) (hpost : marker ∉ post) :
    (∀ s : Str, FullSql env (pre ++ "?".toList ++ post) [Val.string s] =
      (pre ++ ("'".toList ++ doubleBackslashes (stripQuotes s) ++ "'".toList) ++ post, none)) ∧
    (∀ (i : Int) (a : Val),
      a ∈ [Val.int i, Val.int8 i, Val.int16 i, Val.int32 i, Val.int64 i] →
      FullSql env (pre ++ "?".toList ++ post) [a] = (pre ++ intToA i ++ post, none)) ∧
    (∀ (n : Nat) (a : Val),
      a ∈ [Val.uint n, Val.uint8 n, Val.uint16 n, Val.uint32 n, Val.uint64 n] →
      FullSql env (pre ++ "?".toList ++ post) [a] = (pre ++ natToA n ++ post, none)) ∧
    FullSql env "SELECT * FROM t WHERE id=? AND name=?".toList
        [Val.int 7, Val.string "O'Brien".toList] =
      ("SELECT * FROM t WHERE id=7 AND name='OBrien'".toList, none) := by
  have e : pre ++ "?".toList ++ post = pre ++ marker :: post := by
    simp [marker]
  rw [e]
  refine ⟨fun s => ?_, fun i a ha => ?_, fun n a ha => ?_, rfl⟩
  · apply fullSql_single env pre post _ _ hpre hpost
    simp only [literal, replace_quote_eq, replace_backslash_eq]
  · apply fullSql_single env pre post _ _ hpre hpost
    simp only [List.mem_cons, List.mem_singleton, List.not_mem_nil, or_false] at ha
    rcases ha with rfl | rfl | rfl | rfl | rfl <;> rfl
  · apply fullSql_single env pre post _ _ hpre hpost
    simp only [List.mem_cons, List.mem_singleton, List.not_mem_nil, or_false] at ha
    rcases ha with rfl | rfl | rfl | rfl | rfl <;> rfl

theorem C5_string_and_integer_literals_witness :
    FullSql env0 ("name=".toList ++ "?".toList ++ " LIMIT 1".toList)
        [Val.string "a'b\\c".toList] =
      ("name='ab\\\\c' LIMIT 1".toList, none) ∧
    FullSql env0 ("name=".toList ++ "?".toList ++ " LIMIT 1".toList) [Val.int64 (-12)] =
      ("name=-12 LIMIT 1".toList, none) :=
  ⟨(C5_string_and_integer_literals env0 "name=".toList " LIMIT 1".toList
      (by decide) (by decide)).1 "a'b\\c".toList,
   (C5_string_and_integer_literals env0 "name=".toList " LIMIT 1".toList
      (by decide) (by decide)).2.1 (-12) (Val.int64 (-12)) (by decide)⟩

/-! ## C6 -/

/-- C6: for every template that contains no "?" and every argument list, of any
length and with arguments of any type, `FullSql` returns the template unchanged and
no error. -/
theorem C6_template_without_marker_unchanged (env : Env) (str : Str) (args : List Val)
    (h : marker ∉ str) : FullSql env str args = (str, none) :=
  fullSql_of_no_marker env str args h

theorem C6_template_without_marker_unchanged_witness :
    FullSql env0 "SELECT 1".toList [Val.int 7, timeVal, Val.incVal ⟨5, []⟩] =
      ("SELECT 1".toList, none) :=
  C6_template_without_marker_unchanged env0 "SELECT 1".toList
    [Val.int 7, timeVal, Val.incVal ⟨5, []⟩] (by decide)

/-! ## C7 -/

/-- C7, as stated, fails: the Update builder with table "t", filter "id=1" and the
value "a?" for field n compiles to a statement with one marker and one bound
argument, a string, and `FullSql` of the two still contains a "?", the one of the
argument itself. -/
theorem C7_counterexample :
    ToSql env0 updateMark [] =
      some ({ updateMark with args := [Val.string "a?".toList] },
        "UPDATE t SET `n`=? WHERE id=1".toList, none) ∧
    (literal env0 (Val.string "a?".toList)).isSome = true ∧
    "UPDATE t SET `n`=? WHERE id=1".toList.count marker ≤ [Val.string "a?".toList].length ∧
    FullSql env0 "UPDATE t SET `n`=? WHERE id=1".toList [Val.string "a?".toList] =
      ("UPDATE t SET `n`='a?' WHERE id=1".toList, none) ∧
    marker ∈ (FullSql env0 "UPDATE t SET `n`=? WHERE id=1".toList
      [Val.string "a?".toList]).1 := by
  decide

/-- C7, amended: when no string among the arguments contains a "?", the string
returned by `FullSql` contains no "?": so it is for the statement and the bound
arguments of every builder whose `ToSql` succeeds, and for every template with
arguments of supported types at least as many as its markers, where `FullSql`
moreover returns no error. -/
theorem C7_no_marker_after_rendering (env : Env) :
    (∀ (q q1 : SB) (r : List Bool) (s : Str), ToSql env q r = some (q1, s, none) →
      (∀ t, Val.string t ∈ GetArgs q1 → marker ∉ t) →
      marker ∉ (FullSql env s (GetArgs q1)).1) ∧
    (∀ (s : Str) (args : List Val), (∀ a ∈ args, (literal env a).isSome) →
      s.count marker ≤ args.length →
      (∀ t, Val.string t ∈ args → marker ∉ t) →
      ∃ out, FullSql env s args = (out, none) ∧ marker ∉ out) := by
  refine ⟨fun q q1 r s _ hargs => fullSql_no_marker env s _ hargs,
    fun s args hsup _ hargs => ?_⟩
  have hno := fullSql_no_marker env s args hargs
  by_cases h : marker ∈ s
  · rw [fullSql_of_marker env s args h] at hno ⊢
    rcases fullSqlLoop_ok env s args (Split marker s) 0 []
      (fun i v _ _ hv => hsup v (List.getElem?_mem hv)) with ⟨out, hout⟩
    rw [hout] at hno
    exact ⟨out, hout, hno⟩
  · exact ⟨s, fullSql_of_no_marker env s args h, h⟩

theorem C7_no_marker_after_rendering_witness :
    marker ∉ (FullSql env0 "UPDATE t SET `n`=? WHERE id=1".toList (GetArgs
      { updateT with args := [Val.int 3] })).1 ∧
    ∃ out, FullSql env0 "a=? AND b=?".toList [Val.int 3, Val.string "x".toList, Val.nil] =
      (out, none) ∧ marker ∉ out :=
  ⟨(C7_no_marker_after_rendering env0).1 updateT { updateT with args := [Val.int 3] } []
      "UPDATE t SET `n`=? WHERE id=1".toList (by decide)
      (fun t ht => by simp [GetArgs] at ht),
   (C7_no_marker_after_rendering env0).2 "a=? AND b=?".toList
      [Val.int 3, Val.string "x".toList, Val.nil] (by decide) (by decide)
      (fun t ht => by
        simp only [List.mem_cons, List.mem_singleton, List.not_mem_nil, or_false,
          Val.string.injEq, false_or, reduceCtorEq] at ht
        subst ht
        decide)⟩

/-! ## C8 -/

/-- C8, as stated, fails: with the template "id=?" and the arguments 7, 8 and a
`time.Time`, a type that `FullSql` does not render, `FullSql` returns no error: the
loop runs over the two fragments and never looks at the third argument. -/
theorem C8_counterexample :
    marker ∈ "id=?".toList ∧ literal env0 timeVal = none ∧
    (FullSql env0 "id=?".toList [Val.int 7, Val.int 8, timeVal]).2 = none := by
  decide

/-- C8, amended: for every template with N ≥ 1 markers and every argument list,
`FullSql` returns an error and the empty string when one of the first min(N, len)
arguments is of a type it does not render, the error naming such an argument and
the template; it returns no error when every argument among the first N+1 is of a
rendered type, whatever the types of the arguments after them. -/
theorem C8_error_on_unsupported_argument (env : Env) (s : Str) (args : List Val)
    (hN : 1 ≤ s.count marker) :
    ((∃ i v, i < s.count marker ∧ args[i]? = some v ∧ literal env v = none) →
      ∃ v, v ∈ args ∧ literal env v = none ∧
        FullSql env s args = ([], some (Err.invalidArg v s))) ∧
    ((∀ i v, i ≤ s.count marker → args[i]? = some v → (literal env v).isSome) →
      (FullSql env s args).2 = none) := by
  have hm : marker ∈ s := List.count_pos_iff.1 hN
  rw [fullSql_of_marker env s args hm]
  constructor
  · rintro ⟨i, v, hi, hv, hl⟩
    apply fullSqlLoop_err
    exact ⟨i, v, Nat.zero_le _, by rw [split_length]; omega, hv, hl⟩
  · intro h
    rcases fullSqlLoop_ok env s args (Split marker s) 0 []
      (fun i v _ hi hv => h i v (by rw [split_length] at hi; omega) hv) with ⟨out, hout⟩
    rw [hout]

theorem C8_error_on_unsupported_argument_witness :
    (∃ v, v ∈ [Val.int 7, timeVal] ∧ literal env0 v = none ∧
        FullSql env0 "a=? AND b=?".toList [Val.int 7, timeVal] =
          ([], some (Err.invalidArg v "a=? AND b=?".toList))) ∧
    (FullSql env0 "id=?".toList [Val.int 7, Val.int 8, timeVal]).2 = none :=
  ⟨(C8_error_on_unsupported_argument env0 "a=? AND b=?".toList [Val.int 7, timeVal]
      (by decide)).1 ⟨1, timeVal, by decide, by decide, by decide⟩,
   (C8_error_on_unsupported_argument env0 "id=?".toList [Val.int 7, Val.int 8, timeVal]
      (by decide)).2 (fun i v hi hv => by
        have hi2 : i ≤ 1 := hi
        have h0 : i = 0 ∨ i = 1 := by omega
        rcases h0 with rfl | rfl
        · cases hv; decide
        · cases hv; decide)⟩

/-! ## C9 -/

/-- The statement of a Select builder up to and including its ORDER BY clause. -/
theorem toSqlSwitch_select_other_dialect (env : Env) (q : SB) (d : Database)
    (hkind : q.t = TypeSelect) (hdb : q.db = some d) (h1 : d.Type_ ≠ [])
    (h2 : d.Type_ ≠ "mysql".toList) :
    ∃ str, ∀ l : Str, ToSqlSwitch env { q with limit := l, args := [] } =
      some ({ q with limit := l, args := [] }, str, none) := by
  refine ⟨
    (fun s3 : Str => if q.order ≠ [] then s3 ++ (" ORDER BY ".toList ++ q.order) else s3)
    ((fun s2 : Str => if q.group ≠ [] then s2 ++ (" GROUP BY ".toList ++ q.group) else s2)
    ((fun s1 : Str => if q.where_ ≠ [] then s1 ++ (" WHERE ".toList ++ q.where_) else s1)
    ((fun s0 : Str => if q.table ≠ [] then s0 ++ (" FROM ".toList ++ q.table) else s0)
    ("SELECT ".toList ++ q.field)))), fun l => ?_⟩
  by_cases hl : l = []
  · simp only [ToSqlSwitch, hkind, hl, TypeInsert, TypeDelete, TypeUpdate, TypeSelect,
      TypeInsertUpdate]
    simp only [ne_eq, not_true_eq_false, if_false, Int.reduceEq]
    rfl
  · simp only [ToSqlSwitch, hkind, hdb, TypeInsert, TypeDelete, TypeUpdate, TypeSelect,
      TypeInsertUpdate]
    have h3 : ¬ d.Type_ = ['m', 'y', 's', 'q', 'l'] := h2
    simp [hl, h1, h3]

/-- C9: for every Select builder on a database whose dialect tag is neither empty
nor "mysql", `ToSql` returns the same statement and the same error whatever the
limit clause is, in particular the ones of the builder with no limit configured and
of the builder after any call of `Limit`: no " LIMIT " clause is emitted. -/
theorem C9_no_limit_outside_mysql_family (env : Env) (q : SB) (d : Database)
    (r : List Bool) (hkind : q.t = TypeSelect) (hdb : q.db = some d)
    (h1 : d.Type_ ≠ []) (h2 : d.Type_ ≠ "mysql".toList) :
    ∃ (str : Str) (err : Option Err),
      (ToSql env { q with limit := [] } r).map (fun x => x.2) = some (str, err) ∧
      (∀ l : Str, (ToSql env { q with limit := l } r).map (fun x => x.2) = some (str, err)) ∧
      (∀ (count : Int) (offset : List Int),
        (ToSql env (Limit q count offset) r).map (fun x => x.2) = some (str, err)) := by
  rcases toSqlSwitch_select_other_dialect env q d hkind hdb h1 h2 with ⟨str, hstr⟩
  have key : ∀ l : Str, (ToSql env { q with limit := l } r).map (fun x => x.2) =
      some (if r.length = 1 ∧ r.head? = some true then FullSql env str [] else (str, none)) := by
    intro l
    have h := hstr l
    simp only [ToSql, h]
    split <;> rfl
  refine ⟨_, _, key [], key, fun count offset => ?_⟩
  cases offset with
  | nil => exact key _
  | cons o os => exact key _

theorem C9_no_limit_outside_mysql_family_witness :
    ∃ (str : Str) (err : Option Err),
      (ToSql env0 { selectMssql with limit := [] } []).map (fun x => x.2) = some (str, err) ∧
      (∀ l : Str, (ToSql env0 { selectMssql with limit := l } []).map (fun x => x.2) =
        some (str, err)) ∧
      (∀ (count : Int) (offset : List Int),
        (ToSql env0 (Limit selectMssql count offset) []).map (fun x => x.2) =
          some (str, err)) :=
  C9_no_limit_outside_mysql_family env0 selectMssql ⟨"mssql".toList⟩ [] (by decide) (by decide)
    (by decide) (by decide)

/-! ## C10 -/

/-- C10, as stated, fails: with the identifier-quoting symbol at its declared value,
a backquote, `IncVal{5, ""}` on field score is rendered with the field name quoted
on the left of the equal sign, not as score=score+5, and likewise for
`IncVal{-3, "base_score"}`. -/
theorem C10_counterexample :
    Substr (buildUpdateParams env0 Update [("score".toList, Val.incVal ⟨5, []⟩)]).2 1 =
      "`score`=score+5".toList ∧
    Substr (buildUpdateParams env0 Update [("score".toList, Val.incVal ⟨5, []⟩)]).2 1 ≠
      "score=score+5".toList ∧
    Substr (buildUpdateParams env0 Update
        [("score".toList, Val.incVal ⟨-3, "base_score".toList⟩)]).2 1 =
      "`score`=base_score-3".toList ∧
    Substr (buildUpdateParams env0 Update
        [("score".toList, Val.incVal ⟨-3, "base_score".toList⟩)]).2 1 ≠
      "score=base_score-3".toList := by
  decide

/-- C10, amended: in `buildUpdateParams`, an entry of field k with value
`IncVal{Val: d, BaseField: b}` adds, after a comma, the assignment made of k between
two copies of the identifier-quoting symbol, "=", the base (b if b is non-empty, k
otherwise, unquoted), and then "+" and the decimal text of d when d ≥ 0, or the
signed decimal text of d alone when d < 0 (it starts with "-"); it binds no
argument.  With the quoting symbol a backquote, `IncVal{5, ""}` on score gives
"score=score+5" with the left "score" between backquotes, and `IncVal{-3,
"base_score"}` gives "score=base_score-3" with the left "score" between backquotes;
with an empty quoting symbol they give score=score+5 and score=base_score-3. -/
theorem C10_incval_assignment (env : Env) (q : SB) (vs : SBValues) (k : Str) (d : Int)
    (b : Str) :
    buildUpdateParams env q (vs ++ [(k, Val.incVal ⟨d, b⟩)]) =
      ((buildUpdateParams env q vs).1,
       (buildUpdateParams env q vs).2 ++ (",".toList ++ env.WrapSymbol ++ k ++ env.WrapSymbol
          ++ "=".toList ++ (if b = [] then k else b)
          ++ (if d ≥ 0 then "+".toList ++ I64toA d else I64toA d))) ∧
    I64toA d = (if d < 0 then '-' :: natToA d.natAbs else natToA d.toNat) ∧
    buildUpdateParams env0 Update [("score".toList, Val.incVal ⟨5, []⟩)] =
      (Update, ",`score`=score+5".toList) ∧
    buildUpdateParams env0 Update [("score".toList, Val.incVal ⟨-3, "base_score".toList⟩)] =
      (Update, ",`score`=base_score-3".toList) ∧
    (buildUpdateParams { env0 with WrapSymbol := [] } Update
        [("score".toList, Val.incVal ⟨5, []⟩)]).2 = ",score=score+5".toList ∧
    (buildUpdateParams { env0 with WrapSymbol := [] } Update
        [("score".toList, Val.incVal ⟨-3, "base_score".toList⟩)]).2 =
      ",score=base_score-3".toList := by
  refine ⟨?_, rfl, by decide, by decide, by decide, by decide⟩
  simp only [buildUpdateParams, List.foldl_append, List.foldl_cons, List.foldl_nil,
    updateStep, Ternary]
  by_cases hd : d ≥ 0 <;> by_cases hb : b = [] <;> simp [hd, hb, List.append_assoc]

/-! ## Lemmas on the switch of `ToSql` -/

theorem substr_flatten_eq_intercalate (l : List Str) :
    Substr ((l.map fun x => ",".toList ++ x).flatten) 1 = ",".toList.intercalate l := by
  cases l with
  | nil => rfl
  | cons x l => exact drop_flatten_eq_intercalate ",".toList (x :: l) (by simp)

theorem insert_foldl_args (env : Env) (vals : SBValues) (st : Str × Str × List Val) :
    vals.foldl (insertStep env) st =
      (st.1 ++ ((vals.map fun kv => env.WrapSymbol ++ kv.1 ++ env.WrapSymbol).map
          fun x => ",".toList ++ x).flatten,
       st.2.1 ++ ((List.replicate vals.length "?".toList).map fun x => ",".toList ++ x).flatten,
       st.2.2 ++ vals.map fun kv => insertArg kv.2) := by
  rw [insert_foldl]
  refine Prod.ext ?_ (Prod.ext ?_ ?_)
  · simp [List.map_map, Function.comp_def]
  · simp [List.map_replicate]
  · simp only
    congr 1

theorem toSqlSwitch_insert_ok (env : Env) (q : SB) (hkind : q.t = TypeInsert)
    (htable : q.table ≠ []) (hvalues : q.values ≠ []) :
    ToSqlSwitch env q =
      some ({ q with args := q.args ++ q.values.map fun kv => insertArg kv.2 },
        (if q.ignore then "INSERT IGNORE INTO ".toList else "INSERT INTO ".toList) ++ q.table
          ++ " (".toList
          ++ ",".toList.intercalate
              (q.values.map fun kv => env.WrapSymbol ++ kv.1 ++ env.WrapSymbol)
          ++ ") VALUES (".toList
          ++ ",".toList.intercalate (List.replicate q.values.length "?".toList)
          ++ ")".toList, none) := by
  have hlen : q.values.length ≠ 0 := fun h => hvalues (List.length_eq_zero.1 h)
  simp only [ToSqlSwitch, hkind, if_true, if_neg htable, if_neg hlen, insert_foldl_args,
    substr_flatten_eq_intercalate, List.nil_append]
  cases q.ignore <;> simp [List.append_assoc]

theorem updateStep_eq (env : Env) (st : Str × List Val) (kv : Str × Val) :
    updateStep env st kv =
      (st.1 ++ (",".toList ++ assignment env kv),
       st.2 ++ (if kv.2.isIncVal then [] else [kv.2])) := by
  obtain ⟨k, v⟩ := kv
  cases v <;> simp [updateStep, assignment, Val.isIncVal, List.append_assoc]
  case incVal iv =>
    by_cases hd : 0 ≤ iv.Val <;> by_cases hb : iv.BaseField = [] <;>
      simp [hd, hb, Ternary, List.append_assoc]

theorem update_foldl (env : Env) (vals : SBValues) (st : Str × List Val) :
    vals.foldl (updateStep env) st =
      (st.1 ++ ((vals.map (assignment env)).map fun x => ",".toList ++ x).flatten,
       st.2 ++ plainValues vals) := by
  induction vals generalizing st with
  | nil => simp [plainValues]
  | cons kv vals ih =>
    rw [List.foldl_cons, ih, updateStep_eq]
    cases h : kv.2.isIncVal <;> simp [plainValues, h, List.append_assoc]

theorem buildUpdateParams_eq (env : Env) (q : SB) (vals : SBValues) :
    buildUpdateParams env q vals =
      ({ q with args := q.args ++ plainValues vals },
       ((vals.map (assignment env)).map fun x => ",".toList ++ x).flatten) := by
  simp [buildUpdateParams, update_foldl]

theorem toSqlSwitch_update_ok (env : Env) (q : SB) (hkind : q.t = TypeUpdate)
    (htable : q.table ≠ []) (hguard : ¬ (q.where_ = [] ∧ ¬ q.unsafe_)) :
    ToSqlSwitch env q =
      some ({ q with args := q.args ++ plainValues q.values },
        "UPDATE ".toList ++ q.table ++ " SET ".toList
          ++ ",".toList.intercalate (q.values.map (assignment env))
          ++ (if q.where_ ≠ [] then " WHERE ".toList ++ q.where_ else []), none) := by
  simp only [ToSqlSwitch, hkind, TypeInsert, TypeDelete, TypeUpdate, buildUpdateParams_eq,
    substr_flatten_eq_intercalate]
  simp only [Int.reduceEq, if_false, if_true, ne_eq, htable, not_false_eq_true, hguard]
  by_cases hw : q.where_ = [] <;> simp [hw, List.append_assoc]

theorem toSqlSwitch_update_err (env : Env) (q : SB) (hkind : q.t = TypeUpdate)
    (htable : q.table ≠ []) (hguard : q.where_ = [] ∧ ¬ q.unsafe_) :
    ToSqlSwitch env q = some (q, [], some (Err.New "updating all data is not safe".toList)) := by
  simp only [ToSqlSwitch, hkind, TypeInsert, TypeDelete, TypeUpdate]
  obtain ⟨hw, hu⟩ := hguard
  simp [htable, hw, hu]

/-- What `ToSql` returns when its switch ends without error. -/
theorem toSql_of_switch_none (env : Env) (q q1 : SB) (str : Str) (r : List Bool)
    (h : ToSqlSwitch env { q with args := [] } = some (q1, str, none)) :
    ToSql env q r =
      some (q1, if r = [true] then FullSql env str q1.args else (str, none)) := by
  by_cases hr : r = [true]
  · subst hr
    simp [ToSql, h]
  · rw [toSql_of_switch_ok env q q1 str r hr h, if_neg hr]

theorem toSqlSwitch_insert_no_table (env : Env) (q : SB) (hkind : q.t = TypeInsert)
    (htable : q.table = []) :
    ToSqlSwitch env q = some (q, [], some (Err.New "table cannot be empty".toList)) := by
  simp [ToSqlSwitch, hkind, htable]

theorem toSqlSwitch_insert_no_values (env : Env) (q : SB) (hkind : q.t = TypeInsert)
    (htable : q.table ≠ []) (hvalues : q.values = []) :
    ToSqlSwitch env q = some (q, [], some (Err.New "values cannot be empty".toList)) := by
  simp [ToSqlSwitch, hkind, htable, hvalues]

/-! ## C11 -/

/-- C11: for every Update builder with a non-empty table whose `ToSql` succeeds,
the bound arguments are exactly the plain (non-`IncVal`) values of the value set, in
the order of the entries, as many as there are plain entries; the SET clause is the
comma-joined list of the assignments of the entries in the same order, where a plain
entry gives the quoted field followed by "=?" and an `IncVal` entry gives an inline
expression, with no bound argument. -/
theorem C11_update_binds_plain_values (env : Env) (q q1 : SB) (r : List Bool) (s : Str)
    (hkind : q.t = TypeUpdate) (htable : q.table ≠ [])
    (h : ToSql env q r = some (q1, s, none)) :
    GetArgs q1 = plainValues q.values ∧
    (GetArgs q1).length = (q.values.filter fun kv => !kv.2.isIncVal).length ∧
    (r ≠ [true] →
      s = "UPDATE ".toList ++ q.table ++ " SET ".toList
          ++ ",".toList.intercalate (q.values.map (assignment env))
          ++ (if q.where_ ≠ [] then " WHERE ".toList ++ q.where_ else [])) ∧
    (∀ kv ∈ q.values, kv.2.isIncVal = false →
      assignment env kv = env.WrapSymbol ++ kv.1 ++ env.WrapSymbol ++ "=?".toList) ∧
    (∀ kv ∈ q.values, ∀ iv, kv.2 = Val.incVal iv →
      assignment env kv = env.WrapSymbol ++ kv.1 ++ env.WrapSymbol ++ "=".toList
        ++ (if iv.BaseField = [] then kv.1 else iv.BaseField)
        ++ (if iv.Val ≥ 0 then "+".toList ++ I64toA iv.Val else I64toA iv.Val)) := by
  have hk0 : ({ q with args := [] } : SB).t = TypeUpdate := hkind
  have hargs : GetArgs q1 = plainValues q.values ∧
      (r ≠ [true] →
        s = "UPDATE ".toList ++ q.table ++ " SET ".toList
            ++ ",".toList.intercalate (q.values.map (assignment env))
            ++ (if q.where_ ≠ [] then " WHERE ".toList ++ q.where_ else [])) := by
    by_cases hguard : q.where_ = [] ∧ ¬ q.unsafe_
    · rw [toSql_of_switch_err env q _ _ _ r
        (toSqlSwitch_update_err env { q with args := [] } hk0 htable hguard)] at h
      simp at h
    · rw [toSql_of_switch_none env q _ _ r
        (toSqlSwitch_update_ok env { q with args := [] } hk0 htable hguard)] at h
      simp only [Option.some.injEq, Prod.mk.injEq] at h
      obtain ⟨h1, h2⟩ := h
      subst h1
      refine ⟨by simp [GetArgs], fun hr => ?_⟩
      rw [if_neg hr] at h2
      simp only [Prod.mk.injEq, and_true] at h2
      exact h2.symm
  refine ⟨hargs.1, ?_, hargs.2, ?_, ?_⟩
  · rw [hargs.1, plainValues, List.filter_map, List.length_map]
    rfl
  · rintro ⟨k, v⟩ _ hv
    cases v <;> first | rfl | simp [Val.isIncVal] at hv
  · rintro ⟨k, v⟩ _ iv hv
    simp only at hv
    subst hv
    rfl

theorem C11_update_binds_plain_values_witness :
    GetArgs { updateInc with args := [Val.int 3, Val.string "a".toList] } =
      plainValues updateInc.values ∧
    ([Val.int 3, Val.string "a".toList] : List Val).length = 2 ∧
    "UPDATE t SET `n`=?,`score`=score+5,`name`=? WHERE id=1".toList =
      "UPDATE ".toList ++ updateInc.table ++ " SET ".toList
        ++ ",".toList.intercalate (updateInc.values.map (assignment env0))
        ++ (if updateInc.where_ ≠ [] then " WHERE ".toList ++ updateInc.where_ else []) :=
  have h := C11_update_binds_plain_values env0 updateInc
    { updateInc with args := [Val.int 3, Val.string "a".toList] } []
    "UPDATE t SET `n`=?,`score`=score+5,`name`=? WHERE id=1".toList
    (by decide) (by decide) (by decide)
  ⟨h.1, by decide, h.2.2.1 (by decide)⟩

/-! ## C12 -/

/-- C12: for every Insert builder whose `ToSql` succeeds, the emitted field list is
the list of the quoted field names of the entries and the bound arguments follow it
entry by entry: at the position of the field k of an entry (k, v), the bound argument
is v itself, except that for v an `IncVal` it is its delta `Val` as an `int64`, the
`BaseField` playing no part. -/
theorem C12_insert_args_follow_fields (env : Env) (q q1 : SB) (r : List Bool) (s : Str)
    (hkind : q.t = TypeInsert) (h : ToSql env q r = some (q1, s, none)) :
    ∃ fields : List Str,
      fields = q.values.map (fun kv => env.WrapSymbol ++ kv.1 ++ env.WrapSymbol) ∧
      (r ≠ [true] →
        s = (if q.ignore then "INSERT IGNORE INTO ".toList else "INSERT INTO ".toList)
            ++ q.table ++ " (".toList ++ ",".toList.intercalate fields
            ++ ") VALUES (".toList
            ++ ",".toList.intercalate (List.replicate q.values.length "?".toList)
            ++ ")".toList) ∧
      (GetArgs q1).length = fields.length ∧
      ∀ (i : Nat) (k : Str) (v : Val), q.values[i]? = some (k, v) →
        fields[i]? = some (env.WrapSymbol ++ k ++ env.WrapSymbol) ∧
        (∀ iv, v = Val.incVal iv → (GetArgs q1)[i]? = some (Val.int64 iv.Val)) ∧
        (v.isIncVal = false → (GetArgs q1)[i]? = some v) := by
  have hk0 : ({ q with args := [] } : SB).t = TypeInsert := hkind
  by_cases htable : q.table = []
  · rw [toSql_of_switch_err env q _ _ _ r
      (toSqlSwitch_insert_no_table env { q with args := [] } hk0 htable)] at h
    simp at h
  by_cases hvalues : q.values = []
  · rw [toSql_of_switch_err env q _ _ _ r
      (toSqlSwitch_insert_no_values env { q with args := [] } hk0 htable hvalues)] at h
    simp at h
  rw [toSql_of_switch_none env q _ _ r
    (toSqlSwitch_insert_ok env { q with args := [] } hk0 htable hvalues)] at h
  simp only [Option.some.injEq, Prod.mk.injEq] at h
  obtain ⟨h1, h2⟩ := h
  subst h1
  refine ⟨_, rfl, fun hr => ?_, by simp [GetArgs], fun i k v hi => ⟨?_, fun iv hv => ?_, fun hv => ?_⟩⟩
  · rw [if_neg hr] at h2
    simp only [Prod.mk.injEq, and_true] at h2
    exact h2.symm
  · simp [List.getElem?_map, hi]
  · subst hv
    simp [GetArgs, List.getElem?_map, hi, insertArg]
  · have e : insertArg v = v := by
      cases v <;> first | rfl | simp [Val.isIncVal] at hv
    simp [GetArgs, List.getElem?_map, hi, e]

theorem C12_insert_args_follow_fields_witness :
    ∃ fields : List Str,
      fields = insertT.values.map (fun kv => env0.WrapSymbol ++ kv.1 ++ env0.WrapSymbol) ∧
      (([] : List Bool) ≠ [true] →
        "INSERT INTO t (`id`,`name`,`hits`) VALUES (?,?,?)".toList =
          (if insertT.ignore then "INSERT IGNORE INTO ".toList else "INSERT INTO ".toList)
            ++ insertT.table ++ " (".toList ++ ",".toList.intercalate fields
            ++ ") VALUES (".toList
            ++ ",".toList.intercalate (List.replicate insertT.values.length "?".toList)
            ++ ")".toList) ∧
      (GetArgs { insertT with args := [Val.int 7, Val.string "a".toList, Val.int64 2] }).length =
        fields.length ∧
      ∀ (i : Nat) (k : Str) (v : Val), insertT.values[i]? = some (k, v) →
        fields[i]? = some (env0.WrapSymbol ++ k ++ env0.WrapSymbol) ∧
        (∀ iv, v = Val.incVal iv →
          (GetArgs { insertT with args := [Val.int 7, Val.string "a".toList, Val.int64 2] })[i]? =
            some (Val.int64 iv.Val)) ∧
        (v.isIncVal = false →
          (GetArgs { insertT with args := [Val.int 7, Val.string "a".toList, Val.int64 2] })[i]? =
            some v) :=
  C12_insert_args_follow_fields env0 insertT
    { insertT with args := [Val.int 7, Val.string "a".toList, Val.int64 2] } []
    "INSERT INTO t (`id`,`name`,`hits`) VALUES (?,?,?)".toList (by decide) (by decide)

/-! ## C13 -/

/-- An error of `FullSql` is the one of its `default` branch, and comes with the
empty string. -/
theorem fullSqlLoop_error_form (env : Env) (str : Str) (args : List Val) (sons : List Str) :
    ∀ (k : Nat) (ret : Str) (e : Err), (FullSqlLoop env str args sons k ret).2 = some e →
      (∃ v, e = Err.invalidArg v str) ∧ (FullSqlLoop env str args sons k ret).1 = [] := by
  induction sons with
  | nil =>
    intro k ret e h
    simp [FullSqlLoop] at h
  | cons son sons ih =>
    intro k ret e h
    by_cases hk : k < args.length
    · cases hl : literal env args[k] with
      | none =>
        rw [fullSqlLoop_step_none env str args son sons k ret _
          (List.getElem?_eq_getElem hk) hl] at h ⊢
        simp only [Option.some.injEq] at h
        exact ⟨⟨_, h.symm⟩, rfl⟩
      | some t =>
        rw [fullSqlLoop_step_some env str args son sons k ret _ t
          (List.getElem?_eq_getElem hk) hl] at h ⊢
        exact ih _ _ e h
    · rw [fullSqlLoop_step_end env str args son sons k ret (by omega)] at h ⊢
      exact ih _ _ e h

theorem fullSql_error_form (env : Env) (str : Str) (args : List Val) (e : Err)
    (h : (FullSql env str args).2 = some e) :
    (∃ v, e = Err.invalidArg v str) ∧ (FullSql env str args).1 = [] := by
  by_cases hm : marker ∈ str
  · rw [fullSql_of_marker env str args hm] at h ⊢
    exact fullSqlLoop_error_form env str args _ _ _ e h
  · rw [fullSql_of_no_marker env str args hm] at h
    simp at h

/-- The three outcomes of `ToSql` on an Insert builder. -/
theorem toSql_insert_cases (env : Env) (q : SB) (r : List Bool) (hkind : q.t = TypeInsert) :
    (q.table = [] ∧ ToSql env q r =
      some ({ q with args := [] }, [], some (Err.New "table cannot be empty".toList))) ∨
    (q.table ≠ [] ∧ q.values = [] ∧ ToSql env q r =
      some ({ q with args := [] }, [], some (Err.New "values cannot be empty".toList))) ∨
    (q.table ≠ [] ∧ q.values ≠ [] ∧ ∃ str : Str,
      (if q.ignore then "INSERT IGNORE INTO ".toList else "INSERT INTO ".toList) ++ q.table
        <+: str ∧
      ToSql env q r = some ({ q with args := q.values.map fun kv => insertArg kv.2 },
        if r = [true] then FullSql env str (q.values.map fun kv => insertArg kv.2)
        else (str, none))) := by
  have hk0 : ({ q with args := [] } : SB).t = TypeInsert := hkind
  by_cases htable : q.table = []
  · exact Or.inl ⟨htable, toSql_of_switch_err env q _ _ _ r
      (toSqlSwitch_insert_no_table env { q with args := [] } hk0 htable)⟩
  by_cases hvalues : q.values = []
  · exact Or.inr (Or.inl ⟨htable, hvalues, toSql_of_switch_err env q _ _ _ r
      (toSqlSwitch_insert_no_values env { q with args := [] } hk0 htable hvalues)⟩)
  have hsw := toSql_of_switch_none env q _ _ r
    (toSqlSwitch_insert_ok env { q with args := [] } hk0 htable hvalues)
  simp only [List.nil_append] at hsw
  exact Or.inr (Or.inr ⟨htable, hvalues, _, by
    simp only [List.append_assoc]
    rw [← List.append_assoc]
    exact List.prefix_append _ _, hsw⟩)

/-- A result that is either the string with no error or the result of `FullSql`
does not carry an error made by `errors.New`. -/
theorem rendered_error_ne_new (env : Env) (r : List Bool) (str s : Str) (args : List Val)
    (text : Str)
    (h : (if r = [true] then FullSql env str args else (str, none)) = (s, some (Err.New text))) :
    False := by
  by_cases hr : r = [true]
  · rw [if_pos hr] at h
    have h2 : (FullSql env str args).2 = some (Err.New text) := by rw [h]
    obtain ⟨⟨v, hv⟩, _⟩ := fullSql_error_form env str args _ h2
    cases hv
  · rw [if_neg hr] at h
    cases h

/-- C13: for every Insert builder, `ToSql` fails with "table cannot be empty" if
and only if the table is empty, fails with "values cannot be empty" if and only if
the table is not empty and the value set is empty, and otherwise, without the
render-literal option, succeeds with a statement that starts with "INSERT IGNORE
INTO " and the table when the ignore flag is set, with "INSERT INTO " and the table
when it is not. -/
theorem C13_insert_outcomes (env : Env) (q : SB) (r : List Bool) (hkind : q.t = TypeInsert) :
    ((∃ q1 s, ToSql env q r =
        some (q1, s, some (Err.New "table cannot be empty".toList))) ↔ q.table = []) ∧
    ((∃ q1 s, ToSql env q r =
        some (q1, s, some (Err.New "values cannot be empty".toList))) ↔
      (q.table ≠ [] ∧ q.values = [])) ∧
    (r ≠ [true] → q.table ≠ [] → q.values ≠ [] →
      ∃ q1 s, ToSql env q r = some (q1, s, none) ∧
        (if q.ignore then "INSERT IGNORE INTO ".toList else "INSERT INTO ".toList) ++ q.table
          <+: s) := by
  rcases toSql_insert_cases env q r hkind with
    ⟨htable, h⟩ | ⟨htable, hvalues, h⟩ | ⟨htable, hvalues, str, hpre, h⟩
  · refine ⟨⟨fun _ => htable, fun _ => ⟨_, _, h⟩⟩, ⟨?_, fun hh => absurd htable hh.1⟩,
      fun _ hh => absurd htable hh⟩
    rintro ⟨q1, s, h2⟩
    rw [h] at h2
    simp only [Option.some.injEq, Prod.mk.injEq, Err.New.injEq] at h2
    exact absurd h2.2.2 (by decide)
  · refine ⟨⟨?_, fun hh => absurd hh htable⟩, ⟨fun _ => ⟨htable, hvalues⟩, fun _ => ⟨_, _, h⟩⟩,
      fun _ _ hh => absurd hvalues hh⟩
    rintro ⟨q1, s, h2⟩
    rw [h] at h2
    simp only [Option.some.injEq, Prod.mk.injEq, Err.New.injEq] at h2
    exact absurd h2.2.2 (by decide)
  · refine ⟨⟨?_, fun hh => absurd hh htable⟩, ⟨?_, fun hh => absurd hh.2 hvalues⟩,
      fun hr _ _ => ⟨{ q with args := q.values.map fun kv => insertArg kv.2 }, str, ?_, hpre⟩⟩
    · rintro ⟨q1, s, h2⟩
      rw [h] at h2
      simp only [Option.some.injEq, Prod.mk.injEq] at h2
      exact (rendered_error_ne_new env r str s _ _ h2.2).elim
    · rintro ⟨q1, s, h2⟩
      rw [h] at h2
      simp only [Option.some.injEq, Prod.mk.injEq] at h2
      exact (rendered_error_ne_new env r str s _ _ h2.2).elim
    · rw [h, if_neg hr]

theorem C13_insert_outcomes_witness :
    ((∃ q1 s, ToSql env0 insertIgnore [] =
        some (q1, s, some (Err.New "table cannot be empty".toList))) ↔
      insertIgnore.table = []) ∧
    ((∃ q1 s, ToSql env0 insertIgnore [] =
        some (q1, s, some (Err.New "values cannot be empty".toList))) ↔
      (insertIgnore.table ≠ [] ∧ insertIgnore.values = [])) ∧
    (([] : List Bool) ≠ [true] → insertIgnore.table ≠ [] → insertIgnore.values ≠ [] →
      ∃ q1 s, ToSql env0 insertIgnore [] = some (q1, s, none) ∧
        (if insertIgnore.ignore then "INSERT IGNORE INTO ".toList else "INSERT INTO ".toList)
          ++ insertIgnore.table <+: s) :=
  C13_insert_outcomes env0 insertIgnore [] (by decide)

/-! ## C14 -/

/-- C14: for every Delete or Update builder whose table is empty, `ToSql`, with or
without its option, returns the empty statement and no error and leaves no bound
argument, whatever the filter clause, the value set and the unsafe flag are. -/
theorem C14_no_table_is_noop (env : Env) (q : SB) (r : List Bool)
    (hkind : q.t = TypeDelete ∨ q.t = TypeUpdate) (htable : q.table = []) :
    ∃ q1, ToSql env q r = some (q1, [], none) ∧ GetArgs q1 = [] := by
  have hsw : ToSqlSwitch env { q with args := [] } = some ({ q with args := [] }, [], none) := by
    rcases hkind with ht | ht <;>
      simp [ToSqlSwitch, ht, TypeInsert, TypeDelete, TypeUpdate, htable]
  refine ⟨{ q with args := [] }, ?_, rfl⟩
  rw [toSql_of_switch_none env q _ _ r hsw]
  by_cases hr : r = [true]
  · rw [if_pos hr]
    rfl
  · rw [if_neg hr]

theorem C14_no_table_is_noop_witness :
    ∃ q1, ToSql env0 { updateInc with table := [] } [true] = some (q1, [], none) ∧
      GetArgs q1 = [] :=
  C14_no_table_is_noop env0 { updateInc with table := [] } [true] (Or.inr (by decide))
    (by decide)

/-! ## C15 -/

theorem insertUpdate_foldl (env : Env) (vals : SBValues) (st : Str × Str × List Val) :
    vals.foldl (insertUpdateStep env) st =
      (st.1 ++ ((vals.map fun kv => env.WrapSymbol ++ kv.1 ++ env.WrapSymbol).map
          fun x => ",".toList ++ x).flatten,
       st.2.1 ++ ((List.replicate vals.length "?".toList).map fun x => ",".toList ++ x).flatten,
       st.2.2 ++ vals.map Prod.snd) := by
  induction vals generalizing st with
  | nil => simp
  | cons kv vals ih =>
    rw [List.foldl_cons, ih]
    simp [insertUpdateStep, List.replicate_succ, List.append_assoc]

theorem toSqlSwitch_insertUpdate (env : Env) (q : SB) (hkind : q.t = TypeInsertUpdate)
    (htable : q.table ≠ []) :
    ToSqlSwitch env q =
      some ({ q with args := q.args ++ q.values.map Prod.snd ++ plainValues q.values2 },
        "INSERT INTO ".toList ++ q.table ++ " (".toList
          ++ ",".toList.intercalate
              (q.values.map fun kv => env.WrapSymbol ++ kv.1 ++ env.WrapSymbol)
          ++ ") VALUES (".toList
          ++ ",".toList.intercalate (List.replicate q.values.length "?".toList)
          ++ ") ON DUPLICATE KEY UPDATE ".toList
          ++ ",".toList.intercalate (q.values2.map (assignment env)), none) := by
  simp only [ToSqlSwitch, hkind, TypeInsert, TypeDelete, TypeUpdate, TypeInsertUpdate,
    buildUpdateParams_eq, insertUpdate_foldl, List.nil_append, substr_flatten_eq_intercalate]
  simp [htable, List.append_assoc]

/-- C15: for every InsertOrUpdate builder with a non-empty table, `ToSql` (without
the render-literal option) returns "INSERT INTO ", the table, the quoted fields of
the primary value set between parentheses, " VALUES " and as many "?" between
parentheses, " ON DUPLICATE KEY UPDATE " and the assignments of the secondary value
set; the bound arguments are the values of the primary set as they are, an `IncVal`
included, followed by the plain values of the secondary set; and an Update builder
whose value set is that secondary set gets the same assignments as its SET clause
and the same plain values as its arguments. -/
theorem C15_insert_update_statement_and_args (env : Env) (q : SB) (r : List Bool)
    (hkind : q.t = TypeInsertUpdate) (htable : q.table ≠ []) (hr : r ≠ [true]) :
    (∃ q1, ToSql env q r =
        some (q1, "INSERT INTO ".toList ++ q.table ++ " (".toList
          ++ ",".toList.intercalate
              (q.values.map fun kv => env.WrapSymbol ++ kv.1 ++ env.WrapSymbol)
          ++ ") VALUES (".toList
          ++ ",".toList.intercalate (List.replicate q.values.length "?".toList)
          ++ ") ON DUPLICATE KEY UPDATE ".toList
          ++ ",".toList.intercalate (q.values2.map (assignment env)), none) ∧
      GetArgs q1 = q.values.map Prod.snd ++ plainValues q.values2) ∧
    (∀ u : SB, u.t = TypeUpdate → u.table ≠ [] → u.where_ ≠ [] → u.values = q.values2 →
      ∃ u1, ToSql env u r =
          some (u1, "UPDATE ".toList ++ u.table ++ " SET ".toList
            ++ ",".toList.intercalate (q.values2.map (assignment env))
            ++ " WHERE ".toList ++ u.where_, none) ∧
        GetArgs u1 = plainValues q.values2) := by
  constructor
  · have hk0 : ({ q with args := [] } : SB).t = TypeInsertUpdate := hkind
    refine ⟨_, toSql_of_switch_ok env q _ _ r hr
      (toSqlSwitch_insertUpdate env { q with args := [] } hk0 htable), ?_⟩
    simp [GetArgs]
  · intro u hu hut huw huv
    have hk0 : ({ u with args := [] } : SB).t = TypeUpdate := hu
    have hsw := toSqlSwitch_update_ok env { u with args := [] } hk0 hut
      (fun hg => huw hg.1)
    refine ⟨{ u with args := plainValues q.values2 }, ?_, rfl⟩
    rw [toSql_of_switch_ok env u _ _ r hr hsw]
    simp [huw, huv, List.append_assoc]

theorem C15_insert_update_statement_and_args_witness :
    (∃ q1, ToSql env0 upsertT [] =
        some (q1, "INSERT INTO ".toList ++ upsertT.table ++ " (".toList
          ++ ",".toList.intercalate
              (upsertT.values.map fun kv => env0.WrapSymbol ++ kv.1 ++ env0.WrapSymbol)
          ++ ") VALUES (".toList
          ++ ",".toList.intercalate (List.replicate upsertT.values.length "?".toList)
          ++ ") ON DUPLICATE KEY UPDATE ".toList
          ++ ",".toList.intercalate (upsertT.values2.map (assignment env0)), none) ∧
      GetArgs q1 = upsertT.values.map Prod.snd ++ plainValues upsertT.values2) ∧
    "INSERT INTO ".toList ++ upsertT.table ++ " (".toList
          ++ ",".toList.intercalate
              (upsertT.values.map fun kv => env0.WrapSymbol ++ kv.1 ++ env0.WrapSymbol)
          ++ ") VALUES (".toList
          ++ ",".toList.intercalate (List.replicate upsertT.values.length "?".toList)
          ++ ") ON DUPLICATE KEY UPDATE ".toList
          ++ ",".toList.intercalate (upsertT.values2.map (assignment env0)) =
      "INSERT INTO t (`a`,`b`) VALUES (?,?) ON DUPLICATE KEY UPDATE `b`=?,`c`=c-2".toList ∧
    upsertT.values.map Prod.snd ++ plainValues upsertT.values2 =
      [Val.incVal ⟨5, []⟩, Val.int 1, Val.int 1] :=
  ⟨(C15_insert_update_statement_and_args env0 upsertT [] (by decide) (by decide)
      (by decide)).1, by decide, by decide⟩

/-! ## C16 -/

/-- An early `return` of the switch leaves the builder as it is and the statement
empty. -/
theorem toSqlSwitch_error (env : Env) (q q1 : SB) (s : Str) (e : Err)
    (h : ToSqlSwitch env q = some (q1, s, some e)) : q1 = q ∧ s = [] := by
  by_cases h1 : q.t = TypeInsert
  · by_cases h2 : q.table = []
    · rw [toSqlSwitch_insert_no_table env q h1 h2] at h
      simp only [Option.some.injEq, Prod.mk.injEq] at h
      exact ⟨h.1.symm, h.2.1.symm⟩
    · by_cases h3 : q.values = []
      · rw [toSqlSwitch_insert_no_values env q h1 h2 h3] at h
        simp only [Option.some.injEq, Prod.mk.injEq] at h
        exact ⟨h.1.symm, h.2.1.symm⟩
      · rw [toSqlSwitch_insert_ok env q h1 h2 h3] at h
        simp at h
  by_cases h2 : q.t = TypeDelete
  · by_cases h3 : q.table = []
    · simp only [ToSqlSwitch, if_neg h1, if_pos h2] at h
      simp [h3] at h
    · by_cases h4 : q.where_ = [] ∧ ¬ q.unsafe_
      · simp only [ToSqlSwitch, if_neg h1, if_pos h2, ne_eq, h3, not_false_eq_true,
          if_true, if_pos h4, Option.some.injEq, Prod.mk.injEq] at h
        exact ⟨h.1.symm, h.2.1.symm⟩
      · simp only [ToSqlSwitch, if_neg h1, if_pos h2, ne_eq, h3, not_false_eq_true,
          if_true, if_neg h4] at h
        simp at h
  by_cases h3 : q.t = TypeUpdate
  · by_cases h4 : q.table = []
    · simp only [ToSqlSwitch, if_neg h1, if_neg h2, if_pos h3] at h
      simp [h4] at h
    · by_cases h5 : q.where_ = [] ∧ ¬ q.unsafe_
      · rw [toSqlSwitch_update_err env q h3 h4 h5] at h
        simp only [Option.some.injEq, Prod.mk.injEq] at h
        exact ⟨h.1.symm, h.2.1.symm⟩
      · rw [toSqlSwitch_update_ok env q h3 h4 h5] at h
        simp at h
  by_cases h4 : q.t = TypeInsertUpdate
  · by_cases h5 : q.table = []
    · simp only [ToSqlSwitch, if_neg h1, if_neg h2, if_neg h3, if_pos h4] at h
      simp [h5] at h
    · rw [toSqlSwitch_insertUpdate env q h4 h5] at h
      simp at h
  by_cases h5 : q.t = TypeSelect
  · simp only [ToSqlSwitch, if_neg h1, if_neg h2, if_neg h3, if_neg h4, if_pos h5] at h
    split at h
    · split at h
      · simp at h
      · split at h <;> simp at h
    · simp at h
  · simp [ToSqlSwitch, h1, h2, h3, h4, h5] at h

/-- When `ToSql` returns an error made by `errors.New`, the builder has no bound
argument and the statement is empty. -/
theorem toSql_error_new (env : Env) (q q1 : SB) (r : List Bool) (s text : Str)
    (h : ToSql env q r = some (q1, s, some (Err.New text))) :
    q1 = { q with args := [] } ∧ s = [] := by
  cases hsw : ToSqlSwitch env { q with args := [] } with
  | none => simp [ToSql, hsw] at h
  | some res =>
    obtain ⟨q2, str, oe⟩ := res
    cases oe with
    | some e2 =>
      rw [toSql_of_switch_err env q q2 str e2 r hsw] at h
      simp only [Option.some.injEq, Prod.mk.injEq] at h
      obtain ⟨h1, h2, _⟩ := h
      subst h1 h2
      exact toSqlSwitch_error env _ _ _ e2 hsw
    | none =>
      rw [toSql_of_switch_none env q q2 str r hsw] at h
      simp only [Option.some.injEq, Prod.mk.injEq] at h
      exact (rendered_error_ne_new env r str s _ _ h.2).elim

/-- C16: whenever `ToSql` returns one of the four compilation errors (table empty,
values empty, unsafe delete, unsafe update), the builder it leaves has no bound
argument, `GetArgs` is the empty list, and the returned statement is empty, whatever
arguments the builder held before the call. -/
theorem C16_compile_error_binds_nothing (env : Env) (q q1 : SB) (r : List Bool) (s : Str)
    (e : Err) (h : ToSql env q r = some (q1, s, some e))
    (he : e = Err.New "table cannot be empty".toList ∨
      e = Err.New "values cannot be empty".toList ∨
      e = Err.New "deleting all data is not safe".toList ∨
      e = Err.New "updating all data is not safe".toList) :
    GetArgs q1 = [] ∧ s = [] := by
  have key : ∀ text, e = Err.New text → GetArgs q1 = [] ∧ s = [] := by
    intro text ht
    subst ht
    obtain ⟨h1, h2⟩ := toSql_error_new env q q1 r s text h
    subst h1
    exact ⟨rfl, h2⟩
  rcases he with he | he | he | he <;> exact key _ he

theorem C16_compile_error_binds_nothing_witness :
    GetArgs { updateInc with where_ := [], args := [] } = [] ∧ ([] : Str) = [] :=
  C16_compile_error_binds_nothing env0
    { updateInc with where_ := [], args := [Val.int 3, Val.string "a".toList] }
    { updateInc with where_ := [], args := [] } [] []
    (Err.New "updating all data is not safe".toList) (by decide) (Or.inr (Or.inr (Or.inr rfl)))

/-! ## C17 -/

/-- The switch of `ToSql` changes no field of the builder but `args`, and fails to
return only on a Select builder with a limit and a nil database. -/
theorem toSqlSwitch_shape (env : Env) (q : SB) :
    (ToSqlSwitch env q = none ∧ q.db = none) ∨
    ∃ (a : List Val) (s : Str) (oe : Option Err),
      ToSqlSwitch env q = some ({ q with args := a }, s, oe) := by
  by_cases h1 : q.t = TypeInsert
  · by_cases h2 : q.table = []
    · exact Or.inr ⟨q.args, _, _, toSqlSwitch_insert_no_table env q h1 h2⟩
    · by_cases h3 : q.values = []
      · exact Or.inr ⟨q.args, _, _, toSqlSwitch_insert_no_values env q h1 h2 h3⟩
      · exact Or.inr ⟨_, _, _, toSqlSwitch_insert_ok env q h1 h2 h3⟩
  by_cases h2 : q.t = TypeDelete
  · refine Or.inr ?_
    simp only [ToSqlSwitch, if_neg h1, if_pos h2]
    by_cases h3 : q.table ≠ []
    · rw [if_pos h3]
      by_cases h4 : q.where_ = [] ∧ ¬ q.unsafe_
      · rw [if_pos h4]
        exact ⟨q.args, _, _, rfl⟩
      · rw [if_neg h4]
        exact ⟨q.args, _, _, rfl⟩
    · rw [if_neg h3]
      exact ⟨q.args, _, _, rfl⟩
  by_cases h3 : q.t = TypeUpdate
  · by_cases h4 : q.table ≠ []
    · by_cases h5 : q.where_ = [] ∧ ¬ q.unsafe_
      · exact Or.inr ⟨q.args, _, _, toSqlSwitch_update_err env q h3 h4 h5⟩
      · exact Or.inr ⟨_, _, _, toSqlSwitch_update_ok env q h3 h4 h5⟩
    · refine Or.inr ⟨q.args, [], none, ?_⟩
      simp only [ToSqlSwitch, if_neg h1, if_neg h2, if_pos h3]
      rw [if_neg h4]
  by_cases h4 : q.t = TypeInsertUpdate
  · by_cases h5 : q.table ≠ []
    · exact Or.inr ⟨_, _, _, toSqlSwitch_insertUpdate env q h4 h5⟩
    · refine Or.inr ⟨q.args, [], none, ?_⟩
      simp only [ToSqlSwitch, if_neg h1, if_neg h2, if_neg h3, if_pos h4]
      rw [if_neg h5]
  by_cases h5 : q.t = TypeSelect
  · simp only [ToSqlSwitch, if_neg h1, if_neg h2, if_neg h3, if_neg h4, if_pos h5]
    by_cases h6 : q.limit ≠ []
    · rw [if_pos h6]
      cases hdb : q.db with
      | none => exact Or.inl ⟨rfl, rfl⟩
      | some db =>
        refine Or.inr ?_
        simp only
        by_cases h7 : db.Type_ = [] ∨ db.Type_ = "mysql".toList
        · rw [if_pos h7]
          exact ⟨q.args, _, _, by rw [← hdb]⟩
        · rw [if_neg h7]
          exact ⟨q.args, _, _, by rw [← hdb]⟩
    · rw [if_neg h6]
      exact Or.inr ⟨q.args, _, _, rfl⟩
  · refine Or.inr ⟨q.args, [], none, ?_⟩
    simp only [ToSqlSwitch, if_neg h1, if_neg h2, if_neg h3, if_neg h4, if_neg h5]

/-- `ToSql` changes no field of the builder but `args`, and returns when the
database is not nil. -/
theorem toSql_shape (env : Env) (q : SB) (r : List Bool) :
    (ToSql env q r = none ∧ q.db = none) ∨
    ∃ (a : List Val) (s : Str) (oe : Option Err),
      ToSql env q r = some ({ q with args := a }, s, oe) := by
  rcases toSqlSwitch_shape env { q with args := [] } with ⟨h, hdb⟩ | ⟨a, s, oe, h⟩
  · exact Or.inl ⟨by simp [ToSql, h], hdb⟩
  · cases oe with
    | some e => exact Or.inr ⟨a, s, some e, toSql_of_switch_err env q _ s e r h⟩
    | none => exact Or.inr ⟨a, _, _, toSql_of_switch_none env q _ s r h⟩

theorem execFinish_success (env : Env) (q : SB) (sql : Str) (r : Except Err SqlResult) :
    (execFinish env q sql r).Success = true ↔ ∃ ret, r = .ok ret := by
  cases r with
  | error e => simp [execFinish]
  | ok ret =>
    simp only [execFinish, Except.ok.injEq, exists_eq', iff_true]
    split_ifs <;> first | rfl | (split <;> rfl)

theorem execFinish_lastID (env : Env) (q : SB) (sql : Str) (r : Except Err SqlResult)
    (h : (execFinish env q sql r).LastID ≠ 0) :
    q.t = TypeInsert ∧ env.DBType = "mysql".toList := by
  cases r with
  | error e => simp [execFinish] at h
  | ok ret =>
    simp only [execFinish] at h
    by_cases h1 : q.t = TypeInsert
    · by_cases h2 : env.DBType = "mysql".toList
      · exact ⟨h1, h2⟩
      · rw [if_pos h1, if_neg h2] at h
        simp at h
    · rw [if_neg h1] at h
      split_ifs at h
      · split at h <;> simp at h
      · simp at h

theorem execFinish_affected (env : Env) (q : SB) (sql : Str) (r : Except Err SqlResult)
    (h : (execFinish env q sql r).Affected ≠ 0) :
    q.t = TypeDelete ∨ q.t = TypeUpdate ∨ q.t = TypeInsertUpdate := by
  cases r with
  | error e => simp [execFinish] at h
  | ok ret =>
    simp only [execFinish] at h
    by_cases h1 : q.t = TypeInsert
    · rw [if_pos h1] at h
      split_ifs at h
      · split at h <;> simp at h
      · simp at h
    · rw [if_neg h1] at h
      by_cases h2 : q.t = TypeDelete ∨ q.t = TypeUpdate ∨ q.t = TypeInsertUpdate
      · exact h2
      · simp [h2] at h

theorem execFinish_error (env : Env) (q : SB) (sql : Str) (e : Err) :
    execFinish env q sql (.error e) =
      { Success := false, Code := 0, Msg := e.Error, LastID := 0, Affected := 0, Sql := sql } :=
  rfl

theorem execFinish_ok (env : Env) (q : SB) (sql : Str) (ret : SqlResult) :
    (execFinish env q sql (.ok ret)).Success = true ∧
    (execFinish env q sql (.ok ret)).Code = 0 ∧
    (execFinish env q sql (.ok ret)).Msg = [] ∧
    (execFinish env q sql (.ok ret)).Sql = sql ∧
    (execFinish env q sql (.ok ret)).LastID =
      (if q.t = TypeInsert ∧ env.DBType = "mysql".toList then
        (match ret.LastInsertId with
         | .ok v => v
         | .error _ => 0)
       else 0) ∧
    (execFinish env q sql (.ok ret)).Affected =
      (if q.t = TypeDelete ∨ q.t = TypeUpdate ∨ q.t = TypeInsertUpdate then
        (match ret.RowsAffected with
         | .ok v => v
         | .error _ => 0)
       else 0) := by
  by_cases h1 : q.t = TypeInsert
  · have h2 : ¬ (q.t = TypeDelete ∨ q.t = TypeUpdate ∨ q.t = TypeInsertUpdate) := by
      rw [h1]
      decide
    by_cases h3 : env.DBType = "mysql".toList
    · have h4 : q.t = TypeInsert ∧ env.DBType = "mysql".toList := ⟨h1, h3⟩
      simp only [execFinish, if_pos h1, if_pos h3, if_pos h4, if_neg h2]
      cases ret.LastInsertId <;> exact ⟨rfl, rfl, rfl, rfl, rfl, rfl⟩
    · have h4 : ¬ (q.t = TypeInsert ∧ env.DBType = "mysql".toList) := fun h => h3 h.2
      simp only [execFinish, if_pos h1, if_neg h3, if_neg h4, if_neg h2]
      exact ⟨trivial, trivial, trivial, trivial, trivial, trivial⟩
  · have h4 : ¬ (q.t = TypeInsert ∧ env.DBType = "mysql".toList) := fun h => h1 h.1
    by_cases h2 : q.t = TypeDelete ∨ q.t = TypeUpdate ∨ q.t = TypeInsertUpdate
    · simp only [execFinish, if_neg h1, if_pos h2, if_neg h4]
      cases ret.RowsAffected <;> exact ⟨rfl, rfl, rfl, rfl, rfl, rfl⟩
    · simp only [execFinish, if_neg h1, if_neg h2, if_neg h4]
      exact ⟨trivial, trivial, trivial, trivial, trivial, trivial⟩

/-- `Exec` when `ToSql` returns an error. -/
theorem exec_of_compile_error (env : Env) (dbExec : Collaborator) (q q1 : SB) (args : List Val)
    (sql : Str) (e : Err) (h : ToSql env q [] = some (q1, sql, some e)) :
    Exec env dbExec q args =
      some (q1, { Success := false, Code := 0, Msg := e.Error, LastID := 0, Affected := 0,
                  Sql := sql }, []) := by
  simp only [Exec, h]

/-- `Exec` when `ToSql` returns no error and the statement is sent with its
arguments. -/
theorem exec_of_plain (env : Env) (dbExec : Collaborator) (q q1 : SB) (d : Database)
    (args : List Val) (sql : Str) (h : ToSql env q [] = some (q1, sql, none))
    (hf : q1.fullsql = false) (hdb : q1.db = some d) :
    Exec env dbExec q args =
      some (q1, execFinish env q1 sql (dbExec d sql (q1.args ++ args)),
        [(sql, q1.args ++ args)]) := by
  simp [Exec, h, hf, hdb]

/-- `Exec` when `ToSql` returns no error and the statement is rendered first. -/
theorem exec_of_rendered (env : Env) (dbExec : Collaborator) (q q1 : SB) (d : Database)
    (args : List Val) (sql sqlStr : Str) (h : ToSql env q [] = some (q1, sql, none))
    (hf : q1.fullsql = true) (hdb : q1.db = some d)
    (hr : FullSql env sql (q1.args ++ args) = (sqlStr, none)) :
    Exec env dbExec q args =
      some (q1, execFinish env q1 sql (dbExec d sqlStr []), [(sqlStr, [])]) := by
  simp [Exec, h, hf, hdb, hr]

/-- `Exec` when `ToSql` returns no error and the rendering of the statement
fails. -/
theorem exec_of_render_error (env : Env) (dbExec : Collaborator) (q q1 : SB)
    (args : List Val) (sql sqlStr : Str) (e : Err) (h : ToSql env q [] = some (q1, sql, none))
    (hf : q1.fullsql = true) (hr : FullSql env sql (q1.args ++ args) = (sqlStr, some e)) :
    Exec env dbExec q args =
      some (q1, { Success := false, Code := 0, Msg := e.Error, LastID := 0, Affected := 0,
                  Sql := sql }, []) := by
  simp [Exec, h, hf, hr]

/-- The claims of C17 for a result that `execFinish` builds from the one call
`c` of the collaborator. -/
theorem execFinish_summary (env : Env) (dbExec : Collaborator) (q : SB) (d : Database)
    (sql : Str) (c : Str × List Val) :
    (∀ c2 ∈ [c], ∀ e, dbExec d c2.1 c2.2 = .error e →
      execFinish env q sql (dbExec d c.1 c.2) =
        { Success := false, Code := 0, Msg := e.Error, LastID := 0, Affected := 0,
          Sql := sql }) ∧
    (∀ c2 ∈ [c], ∀ ret, dbExec d c2.1 c2.2 = .ok ret →
      (execFinish env q sql (dbExec d c.1 c.2)).Success = true ∧
      (execFinish env q sql (dbExec d c.1 c.2)).Code = 0 ∧
      (execFinish env q sql (dbExec d c.1 c.2)).Msg = [] ∧
      (execFinish env q sql (dbExec d c.1 c.2)).Sql = sql ∧
      (execFinish env q sql (dbExec d c.1 c.2)).LastID =
        (if q.t = TypeInsert ∧ env.DBType = "mysql".toList then
          (match ret.LastInsertId with
           | .ok v => v
           | .error _ => 0)
         else 0) ∧
      (execFinish env q sql (dbExec d c.1 c.2)).Affected =
        (if q.t = TypeDelete ∨ q.t = TypeUpdate ∨ q.t = TypeInsertUpdate then
          (match ret.RowsAffected with
           | .ok v => v
           | .error _ => 0)
         else 0)) ∧
    ((execFinish env q sql (dbExec d c.1 c.2)).Success = true ↔
      ∃ c2 ret, [c] = [c2] ∧ dbExec d c2.1 c2.2 = .ok ret) ∧
    ((execFinish env q sql (dbExec d c.1 c.2)).LastID ≠ 0 →
      (execFinish env q sql (dbExec d c.1 c.2)).Success = true ∧ q.t = TypeInsert ∧
        env.DBType = "mysql".toList) ∧
    ((execFinish env q sql (dbExec d c.1 c.2)).Affected ≠ 0 →
      (execFinish env q sql (dbExec d c.1 c.2)).Success = true ∧
        (q.t = TypeDelete ∨ q.t = TypeUpdate ∨ q.t = TypeInsertUpdate)) := by
  have hs : ∀ n : Int, n ≠ 0 →
      ((execFinish env q sql (dbExec d c.1 c.2)).LastID = n ∨
        (execFinish env q sql (dbExec d c.1 c.2)).Affected = n) →
      (execFinish env q sql (dbExec d c.1 c.2)).Success = true := by
    intro n hn h
    cases hr : dbExec d c.1 c.2 with
    | ok ret => exact (execFinish_success env q sql _).2 ⟨ret, rfl⟩
    | error e =>
      rw [hr, execFinish_error] at h
      rcases h with h | h <;> exact absurd h.symm hn
  refine ⟨?_, ?_, ?_, ?_, ?_⟩
  · intro c2 hc2 e he
    rw [List.mem_singleton] at hc2
    subst hc2
    rw [he, execFinish_error]
  · intro c2 hc2 ret hret
    rw [List.mem_singleton] at hc2
    subst hc2
    rw [hret]
    exact execFinish_ok env q sql ret
  · rw [execFinish_success]
    constructor
    · rintro ⟨ret, hret⟩
      exact ⟨c, ret, rfl, hret⟩
    · rintro ⟨c2, ret, hc, hret⟩
      simp only [List.cons.injEq, and_true] at hc
      subst hc
      exact ⟨ret, hret⟩
  · intro h
    exact ⟨hs _ h (Or.inl rfl), execFinish_lastID env q sql _ h⟩
  · intro h
    exact ⟨hs _ h (Or.inr rfl), execFinish_affected env q sql _ h⟩

/-- C17: `Exec` captures every error in its result.  When `ToSql` returns an error,
`Exec` returns `Success` false, `Msg` the text of that error, `LastID` and
`Affected` 0, and does not call the collaborator, whatever the database is.  On a
builder with a database `Exec` always returns a result.  When `ToSql` returns no
error it calls the collaborator exactly once, with the statement and the bound
arguments followed by its own arguments, or, in fullsql mode, with the rendered
statement and no argument; if the rendering fails it does not call it and returns
`Success` false with the text of the rendering error.  If the call returns an error,
the result has `Success` false and its text as `Msg`; if the call succeeds,
`Success` is true, `LastID` is the last insert id when the kind is Insert and the
package variable `DBType` is "mysql" (and the driver reports one) and 0 otherwise,
and `Affected` is the number of rows affected when the kind is Delete, Update or
InsertOrUpdate (and the driver reports one) and 0 otherwise.  Hence `Success` is
true exactly when `ToSql` and the call of the collaborator both succeeded, `LastID`
is set only for kind Insert with the dialect tag `DBType` equal to "mysql", which
is in the MySQL family (and so is the tag of the database when it agrees with
`DBType`), and `Affected` only for the kinds Delete, Update and InsertOrUpdate. -/
theorem C17_exec_captures_errors (env : Env) (dbExec : Collaborator) (q : SB)
    (args : List Val) :
    (∀ q1 sql e, ToSql env q [] = some (q1, sql, some e) →
      Exec env dbExec q args =
        some (q1, { Success := false, Code := 0, Msg := e.Error, LastID := 0, Affected := 0,
                    Sql := sql }, [])) ∧
    (∀ d : Database, q.db = some d →
      ∃ (q1 : SB) (sql : Str) (oe : Option Err) (res : SBResult)
        (calls : List (Str × List Val)),
        ToSql env q [] = some (q1, sql, oe) ∧
        Exec env dbExec q args = some (q1, res, calls) ∧
        (oe = none → q.fullsql = false → calls = [(sql, GetArgs q1 ++ args)]) ∧
        (oe = none → q.fullsql = true →
          ∀ sqlStr, FullSql env sql (GetArgs q1 ++ args) = (sqlStr, none) →
            calls = [(sqlStr, [])]) ∧
        (oe = none → q.fullsql = true →
          ∀ sqlStr e, FullSql env sql (GetArgs q1 ++ args) = (sqlStr, some e) →
            calls = [] ∧
            res = { Success := false, Code := 0, Msg := e.Error, LastID := 0, Affected := 0,
                    Sql := sql }) ∧
        (∀ c ∈ calls, ∀ e, dbExec d c.1 c.2 = .error e →
          res = { Success := false, Code := 0, Msg := e.Error, LastID := 0, Affected := 0,
                  Sql := sql }) ∧
        (∀ c ∈ calls, ∀ ret, dbExec d c.1 c.2 = .ok ret →
          res.Success = true ∧ res.Code = 0 ∧ res.Msg = [] ∧ res.Sql = sql ∧
          res.LastID =
            (if q.t = TypeInsert ∧ env.DBType = "mysql".toList then
              (match ret.LastInsertId with
               | .ok v => v
               | .error _ => 0)
             else 0) ∧
          res.Affected =
            (if q.t = TypeDelete ∨ q.t = TypeUpdate ∨ q.t = TypeInsertUpdate then
              (match ret.RowsAffected with
               | .ok v => v
               | .error _ => 0)
             else 0)) ∧
        (res.Success = true ↔
          oe = none ∧ ∃ c ret, calls = [c] ∧ dbExec d c.1 c.2 = .ok ret) ∧
        (res.LastID ≠ 0 →
          res.Success = true ∧ q.t = TypeInsert ∧ env.DBType = "mysql".toList) ∧
        (res.LastID ≠ 0 → env.DBType = d.Type_ →
          d.Type_ = [] ∨ d.Type_ = "mysql".toList) ∧
        (res.Affected ≠ 0 →
          res.Success = true ∧
            (q.t = TypeDelete ∨ q.t = TypeUpdate ∨ q.t = TypeInsertUpdate))) := by
  refine ⟨fun q1 sql e h => exec_of_compile_error env dbExec q q1 args sql e h,
    fun d hdb => ?_⟩
  rcases toSql_shape env q [] with ⟨_, hnone⟩ | ⟨a, sql, oe, hts⟩
  · rw [hdb] at hnone
    cases hnone
  have hdb1 : ({ q with args := a } : SB).db = some d := hdb
  cases oe with
  | some e =>
    refine ⟨_, sql, some e, _, _, hts, exec_of_compile_error env dbExec q _ args sql e hts,
      fun h => (by cases h), fun h => (by cases h), fun h => (by cases h),
      fun c hc => (by cases hc), fun c hc => (by cases hc), ?_, fun h => absurd rfl h,
      fun h => absurd rfl h, fun h => absurd rfl h⟩
    constructor
    · intro h
      cases h
    · rintro ⟨h, _⟩
      cases h
  | none =>
    by_cases hf : q.fullsql = true
    · have hf1 : ({ q with args := a } : SB).fullsql = true := hf
      cases hfs : FullSql env sql (a ++ args) with
      | mk sqlStr oe2 =>
        cases oe2 with
        | some e2 =>
          refine ⟨_, sql, none, _, _, hts,
            exec_of_render_error env dbExec q _ args sql sqlStr e2 hts hf1 hfs,
            fun _ h => (by rw [hf] at h; cases h), ?_, ?_,
            fun c hc => (by cases hc), fun c hc => (by cases hc), ?_, fun h => absurd rfl h,
            fun h => absurd rfl h, fun h => absurd rfl h⟩
          · intro _ _ s2 h2
            have h3 : FullSql env sql (a ++ args) = (s2, none) := h2
            rw [hfs] at h3
            cases h3
          · intro _ _ s2 e3 h2
            have h3 : FullSql env sql (a ++ args) = (s2, some e3) := h2
            rw [hfs] at h3
            cases h3
            exact ⟨rfl, rfl⟩
          · constructor
            · intro h
              cases h
            · rintro ⟨_, c, ret, hc, _⟩
              cases hc
        | none =>
          obtain ⟨s1, s2, s3, s4, s5⟩ :=
            execFinish_summary env dbExec { q with args := a } d sql (sqlStr, [])
          refine ⟨_, sql, none, _, _, hts,
            exec_of_rendered env dbExec q _ d args sql sqlStr hts hf1 hdb1 hfs,
            fun _ h => (by rw [hf] at h; cases h), ?_, ?_, s1, s2, ?_, s4,
            fun h he => Or.inr (he ▸ (s4 h).2.2), s5⟩
          · intro _ _ s6 h2
            have h3 : FullSql env sql (a ++ args) = (s6, none) := h2
            rw [hfs] at h3
            cases h3
            rfl
          · intro _ _ s6 e3 h2
            have h3 : FullSql env sql (a ++ args) = (s6, some e3) := h2
            rw [hfs] at h3
            cases h3
          · rw [s3]
            exact ⟨fun h => ⟨rfl, h⟩, fun h => h.2⟩
    · have hf0 : q.fullsql = false := by
        cases hq : q.fullsql
        · rfl
        · exact absurd hq hf
      have hf1 : ({ q with args := a } : SB).fullsql = false := hf0
      obtain ⟨s1, s2, s3, s4, s5⟩ :=
        execFinish_summary env dbExec { q with args := a } d sql (sql, a ++ args)
      refine ⟨_, sql, none, _, _, hts, exec_of_plain env dbExec q _ d args sql hts hf1 hdb1,
        fun _ _ => rfl, fun _ h => absurd h hf, fun _ h => absurd h hf, s1, s2, ?_, s4,
        fun h he => Or.inr (he ▸ (s4 h).2.2), s5⟩
      rw [s3]
      exact ⟨fun h => ⟨rfl, h⟩, fun h => h.2⟩

theorem C17_exec_captures_errors_witness :
    (Exec env0 okCollaborator { updateInc with where_ := [] } [] =
      some ({ updateInc with where_ := [] },
        { Success := false, Code := 0,
          Msg := (Err.New "updating all data is not safe".toList).Error,
          LastID := 0, Affected := 0, Sql := [] }, [])) ∧
    (∃ (q1 : SB) (sql : Str) (oe : Option Err) (res : SBResult)
        (calls : List (Str × List Val)),
        ToSql env0 insertMysql [] = some (q1, sql, oe) ∧
        Exec env0 okCollaborator insertMysql [] = some (q1, res, calls) ∧
        (oe = none → insertMysql.fullsql = false → calls = [(sql, GetArgs q1 ++ [])]) ∧
        (res.Success = true ↔
          oe = none ∧
            ∃ c ret, calls = [c] ∧ okCollaborator ⟨"mysql".toList⟩ c.1 c.2 = .ok ret)) ∧
    Exec env0 okCollaborator insertMysql [] =
      some ({ insertMysql with args := [Val.int 7, Val.string "a".toList, Val.int64 2] },
        { Success := true, Code := 0, Msg := [], LastID := 42, Affected := 0,
          Sql := "INSERT INTO t (`id`,`name`,`hits`) VALUES (?,?,?)".toList },
        [("INSERT INTO t (`id`,`name`,`hits`) VALUES (?,?,?)".toList,
          [Val.int 7, Val.string "a".toList, Val.int64 2])]) ∧
    Exec env0 okCollaborator updateFull [Val.int 9] =
      some ({ updateFull with args := [Val.string "x".toList] },
        { Success := true, Code := 0, Msg := [], LastID := 0, Affected := 1,
          Sql := "UPDATE t SET `n`=? WHERE id=?".toList },
        [("UPDATE t SET `n`='x' WHERE id=9".toList, [])]) :=
  ⟨(C17_exec_captures_errors env0 okCollaborator { updateInc with where_ := [] } []).1
      { updateInc with where_ := [] } [] (Err.New "updating all data is not safe".toList)
      (by decide),
   (by
      obtain ⟨q1, sql, oe, res, calls, h1, h2, h3, _, _, _, _, h8, _, _, _⟩ :=
        (C17_exec_captures_errors env0 okCollaborator insertMysql []).2 ⟨"mysql".toList⟩ rfl
      exact ⟨q1, sql, oe, res, calls, h1, h2, h3, h8⟩),
   by decide, by decide⟩

/-! ## C18 -/

/-- `ToSql` starts by emptying `q.args`: what it returns does not depend on the
arguments the builder holds. -/
theorem toSql_args_irrelevant (env : Env) (q : SB) (a : List Val) (r : List Bool) :
    ToSql env { q with args := a } r = ToSql env q r := rfl

/-- C18, as stated, fails: the Insert builder with the values a: 1 and b: 2 compiles
to a statement with the fields a, b when the loop over the map visits a first; the
next call, on the same builder, may visit b first (the order of a `range` over a map
is not fixed from one loop to the next) and then returns another statement and
another argument list. -/
theorem C18_counterexample :
    ToSql env0 insertAB [] =
      some ({ insertAB with args := [Val.int 1, Val.int 2] },
        "INSERT INTO t (`a`,`b`) VALUES (?,?)".toList, none) ∧
    insertBA = { insertAB with args := [Val.int 1, Val.int 2], values := insertBA.values } ∧
    insertBA.values = insertAB.values.reverse ∧
    ToSql env0 insertBA [] =
      some ({ insertBA with args := [Val.int 2, Val.int 1] },
        "INSERT INTO t (`b`,`a`) VALUES (?,?)".toList, none) ∧
    "INSERT INTO t (`a`,`b`) VALUES (?,?)".toList ≠ "INSERT INTO t (`b`,`a`) VALUES (?,?)".toList := by
  decide

/-- C18, amended: `ToSql` rebuilds the bound argument list on every call.  What it
returns does not depend on the arguments bound before; a second call in a row that
visits the entries of the value sets in the same order returns the same statement
and error and leaves `GetArgs` equal to the argument list of the single compile; a
second call that visits them in another order returns what a single compile in that
order returns; and a value set with at most one entry has one order only. -/
theorem C18_args_rebuilt_on_every_call (env : Env) (q q1 : SB) (r : List Bool) (s : Str)
    (oe : Option Err) (h : ToSql env q r = some (q1, s, oe)) :
    ToSql env q1 r = some (q1, s, oe) ∧
    GetArgs q1 = ((ToSql env { q with args := [] } r).map fun x => GetArgs x.1).getD [] ∧
    (∀ a : List Val, ToSql env { q with args := a } r = some (q1, s, oe)) ∧
    (∀ vs vs2 : SBValues,
      ToSql env { q1 with values := vs, values2 := vs2 } r =
        ToSql env { q with values := vs, values2 := vs2, args := [] } r) ∧
    (∀ vs : SBValues, q.values.length ≤ 1 → vs.Perm q.values → vs = q.values) := by
  have hq1 : ∃ a, q1 = { q with args := a } := by
    rcases toSql_shape env q r with ⟨hn, _⟩ | ⟨a, s2, oe2, h2⟩
    · rw [hn] at h
      cases h
    · rw [h2] at h
      simp only [Option.some.injEq, Prod.mk.injEq] at h
      exact ⟨a, h.1.symm⟩
  obtain ⟨a, rfl⟩ := hq1
  refine ⟨h, ?_, fun _ => h, fun vs vs2 => rfl, fun vs hlen hperm => ?_⟩
  · have h0 : ToSql env { q with args := [] } r = ToSql env q r := rfl
    rw [h0, h]
    rfl
  · revert hperm hlen
    generalize q.values = l
    intro hlen hperm
    match l, hlen, hperm with
    | [], _, hperm => exact hperm.eq_nil
    | [x], _, hperm => exact List.perm_singleton.1 hperm
    | _ :: _ :: _, hlen, _ => simp at hlen

theorem C18_args_rebuilt_on_every_call_witness :
    ToSql env0 { insertAB with args := [Val.int 1, Val.int 2] } [] =
      some ({ insertAB with args := [Val.int 1, Val.int 2] },
        "INSERT INTO t (`a`,`b`) VALUES (?,?)".toList, none) ∧
    GetArgs { insertAB with args := [Val.int 1, Val.int 2] } =
      ((ToSql env0 { insertAB with args := [] } []).map fun x => GetArgs x.1).getD [] :=
  have h := C18_args_rebuilt_on_every_call env0 insertAB
    { insertAB with args := [Val.int 1, Val.int 2] } []
    "INSERT INTO t (`a`,`b`) VALUES (?,?)".toList none (by decide)
  ⟨h.1, h.2.1⟩

/-! ## C19 -/

theorem quote_not_mem_stripQuotes (s : Str) : '\'' ∉ stripQuotes s := by
  simp [stripQuotes, List.mem_filter]

theorem quote_not_mem_doubleBackslashes (s : Str) (h : '\'' ∉ s) :
    '\'' ∉ doubleBackslashes s := by
  induction s with
  | nil => simp [doubleBackslashes]
  | cons c cs ih =>
    have hc : '\'' ≠ c := fun e => h (List.mem_cons.2 (Or.inl e))
    have hcs : '\'' ∉ cs := fun e => h (List.mem_cons_of_mem _ e)
    have ih2 := ih hcs
    unfold doubleBackslashes at ih2 ⊢
    by_cases hb : c = '\\'
    · subst hb
      simpa using ih2
    · simp only [List.map_cons, if_neg hb, List.flatten_cons, List.singleton_append,
        List.mem_cons, not_or]
      exact ⟨hc, ih2⟩

theorem backslashRunsFrom_doubled (s : Str) :
    ∀ cur : Nat, cur % 2 = 0 → ∀ n ∈ backslashRunsFrom cur (doubleBackslashes s), n % 2 = 0 := by
  induction s with
  | nil =>
    intro cur hcur n hn
    simp only [doubleBackslashes, List.map_nil, List.flatten_nil, backslashRunsFrom] at hn
    split at hn
    · simp at hn
    · simp only [List.mem_singleton] at hn
      rw [hn]
      exact hcur
  | cons c cs ih =>
    intro cur hcur n hn
    have hd : doubleBackslashes (c :: cs) =
        (if c = '\\' then ['\\', '\\'] else [c]) ++ doubleBackslashes cs := by
      simp [doubleBackslashes]
    rw [hd] at hn
    by_cases hb : c = '\\'
    · subst hb
      simp only [if_true, List.cons_append, List.nil_append, backslashRunsFrom] at hn
      exact ih (cur + 1 + 1) (by omega) n hn
    · simp only [if_neg hb, List.cons_append, List.nil_append, backslashRunsFrom] at hn
      by_cases h0 : cur = 0
      · simp only [h0, if_true] at hn
        exact ih 0 rfl n hn
      · simp only [if_neg h0, List.mem_cons] at hn
        rcases hn with rfl | hn
        · exact hcur
        · exact ih 0 rfl n hn

/-- C19: for every string s, the literal that `FullSql` puts in the place of a
marker for the argument s is a single quote, a body and a single quote, where the
body contains no single quote and every maximal run of backslashes of the body has
even length; the literal contains exactly two single quotes. -/
theorem C19_string_literal_shape (env : Env) (s : Str) :
    ∃ body : Str,
      literal env (Val.string s) = some ('\'' :: body ++ ['\'']) ∧
      FullSql env "?".toList [Val.string s] = ('\'' :: body ++ ['\''], none) ∧
      '\'' ∉ body ∧
      (∀ n ∈ backslashRuns body, n % 2 = 0) ∧
      ('\'' :: body ++ ['\'']).count '\'' = 2 := by
  have hl : literal env (Val.string s) =
      some ('\'' :: doubleBackslashes (stripQuotes s) ++ ['\'']) := by
    simp only [literal, replace_quote_eq, replace_backslash_eq]
    rfl
  have hbody := quote_not_mem_doubleBackslashes _ (quote_not_mem_stripQuotes s)
  refine ⟨doubleBackslashes (stripQuotes s), hl, ?_, hbody,
    backslashRunsFrom_doubled _ 0 rfl, ?_⟩
  · have h := fullSql_single env [] [] _ _ (by simp) (by simp) hl
    simpa using h
  · have hc : (doubleBackslashes (stripQuotes s)).count '\'' = 0 :=
      List.count_eq_zero.2 hbody
    simp [List.count_cons, List.count_append, hc]

/-! ## C20 -/

theorem split_flatten (sep : Char) (s : Str) :
    (Split sep s).flatten = s.filter fun c => c ≠ sep := by
  induction s with
  | nil => rfl
  | cons c cs ih =>
    unfold Split
    by_cases hc : c = sep
    · simp [hc, ih]
    · rw [if_neg hc]
      cases hs : Split sep cs with
      | nil => exact absurd hs (split_ne_nil sep cs)
      | cons f fs =>
        rw [hs] at ih
        simp only [List.flatten_cons] at ih
        simp only [List.flatten_cons, List.cons_append, List.filter_cons, ne_eq, hc,
          not_false_eq_true, decide_True, if_true, ih]

theorem fullSqlLoop_nil_args (env : Env) (str : Str) (sons : List Str) :
    ∀ (k : Nat) (ret : Str), FullSqlLoop env str [] sons k ret = (ret ++ sons.flatten, none) := by
  induction sons with
  | nil =>
    intro k ret
    simp [FullSqlLoop]
  | cons son sons ih =>
    intro k ret
    rw [fullSqlLoop_step_end env str [] son sons k ret (Nat.zero_le _), ih]
    simp

/-- Without arguments `FullSql` removes the markers and nothing else. -/
theorem fullSql_nil_args (env : Env) (str : Str) :
    FullSql env str [] = (str.filter fun c => c ≠ marker, none) := by
  by_cases h : marker ∈ str
  · rw [fullSql_of_marker env str [] h, fullSqlLoop_nil_args, split_flatten]
    simp
  · rw [fullSql_of_no_marker env str [] h]
    congr 1
    symm
    rw [List.filter_eq_self]
    intro c hc
    have : c ≠ marker := fun e => h (e ▸ hc)
    simpa using this

theorem toSqlSwitch_select_mysql (env : Env) (q : SB) (d : Database)
    (hkind : q.t = TypeSelect) (hdb : q.db = some d)
    (hfam : d.Type_ = [] ∨ d.Type_ = "mysql".toList) (hl : q.limit ≠ []) :
    ∃ body : Str, ToSqlSwitch env q = some (q, body ++ (" LIMIT ".toList ++ q.limit), none) := by
  refine ⟨
    (fun s3 : Str => if q.order ≠ [] then s3 ++ (" ORDER BY ".toList ++ q.order) else s3)
    ((fun s2 : Str => if q.group ≠ [] then s2 ++ (" GROUP BY ".toList ++ q.group) else s2)
    ((fun s1 : Str => if q.where_ ≠ [] then s1 ++ (" WHERE ".toList ++ q.where_) else s1)
    ((fun s0 : Str => if q.table ≠ [] then s0 ++ (" FROM ".toList ++ q.table) else s0)
    ("SELECT ".toList ++ q.field)))), ?_⟩
  simp only [ToSqlSwitch, hkind, hdb, TypeInsert, TypeDelete, TypeUpdate, TypeSelect,
    TypeInsertUpdate]
  simp only [Int.reduceEq, if_false, if_true, if_pos hl, if_pos hfam]

theorem limit_text_no_marker (o count : Int) :
    marker ∉ " LIMIT ".toList ++ Itoa o ++ ",".toList ++ Itoa count := by
  simp only [List.mem_append, not_or]
  exact ⟨⟨⟨by decide, intToA_no_marker o⟩, by decide⟩, intToA_no_marker count⟩

/-- C20: `Limit(count)` sets the limit clause to "0," followed by the decimal text
of count, and `Limit(count, offset, ...)` sets it to the decimal text of the first
offset, a comma and the decimal text of count; `Limit` changes no other field of
the builder; and a Select builder on a database whose dialect tag is "" or "mysql",
after `Limit(count, offset, ...)`, compiles without error to a statement that ends
with " LIMIT ", the offset, a comma and the count. -/
theorem C20_limit_sets_clause (env : Env) (q : SB) (count o : Int) (os : List Int) :
    (Limit q count []).limit = "0,".toList ++ Itoa count ∧
    (Limit q count (o :: os)).limit = Itoa o ++ ",".toList ++ Itoa count ∧
    (∀ offset : List Int,
      Limit q count offset = { q with limit := (Limit q count offset).limit }) ∧
    (∀ (d : Database) (r : List Bool), q.t = TypeSelect → q.db = some d →
      (d.Type_ = [] ∨ d.Type_ = "mysql".toList) →
      ∃ q1 s, ToSql env (Limit q count (o :: os)) r = some (q1, s, none) ∧
        (" LIMIT ".toList ++ Itoa o ++ ",".toList ++ Itoa count) <:+ s) := by
  refine ⟨rfl, rfl, fun offset => ?_, fun d r hkind hdb hfam => ?_⟩
  · cases offset <;> rfl
  · have hl : ({ Limit q count (o :: os) with args := [] } : SB).limit ≠ [] := by
      simp [Limit]
    obtain ⟨body, hsw⟩ := toSqlSwitch_select_mysql env
      { Limit q count (o :: os) with args := [] } d hkind hdb hfam hl
    rw [toSql_of_switch_none env _ _ _ r hsw]
    have hlim : ({ Limit q count (o :: os) with args := [] } : SB).limit =
        Itoa o ++ ",".toList ++ Itoa count := rfl
    rw [hlim]
    by_cases hr : r = [true]
    · rw [if_pos hr]
      have hargs : ({ Limit q count (o :: os) with args := [] } : SB).args = [] := rfl
      rw [hargs, fullSql_nil_args]
      refine ⟨_, _, rfl, ?_⟩
      rw [List.filter_append]
      have hkeep : List.filter (fun c => decide (c ≠ marker))
          (" LIMIT ".toList ++ (Itoa o ++ ",".toList ++ Itoa count)) =
          " LIMIT ".toList ++ Itoa o ++ ",".toList ++ Itoa count := by
        rw [List.filter_eq_self.2]
        · simp only [List.append_assoc]
        · intro c hc
          have hno := limit_text_no_marker o count
          have hne : c ≠ marker := by
            intro e
            apply hno
            rw [← e]
            simpa only [List.append_assoc] using hc
          simpa using hne
      rw [hkeep]
      exact List.suffix_append _ _
    · rw [if_neg hr]
      refine ⟨_, _, rfl, ?_⟩
      have e : body ++ (" LIMIT ".toList ++ (Itoa o ++ ",".toList ++ Itoa count)) =
          body ++ (" LIMIT ".toList ++ Itoa o ++ ",".toList ++ Itoa count) := by
        simp only [List.append_assoc]
      rw [e]
      exact List.suffix_append _ _

theorem C20_limit_sets_clause_witness :
    (Limit selectMysql 10 [20, 30]).limit = "20,10".toList ∧
    ∃ q1 s, ToSql env0 (Limit selectMysql 10 [20, 30]) [true] = some (q1, s, none) ∧
      (" LIMIT ".toList ++ Itoa 20 ++ ",".toList ++ Itoa 10) <:+ s :=
  ⟨by decide,
   (C20_limit_sets_clause env0 selectMysql 10 20 [30]).2.2.2 ⟨"mysql".toList⟩ [true]
     (by decide) (by decide) (Or.inr rfl)⟩

end Db
